import Mathlib

/-
Verification of the LINspector trace-analysis engine (linspector.py).

The Python source is embedded shallowly: machine integers become Nat/Int
with explicit masking where overflow matters, floats become exact
rationals, fallible code returns Option or Except, and dictionaries
become insertion-ordered association lists.  Each definition mirrors one
function (or a named fragment) of the source file; line references are
given in the doc comments.
-/

/-! ## Generic helpers: association lists (Python dict) -/

/-- Lookup in an insertion-ordered association list (Python `d.get(k)`). -/
def alookup {β : Type} : List (String × β) → String → Option β
  | [], _ => none
  | (k0, v0) :: rest, k => if k0 = k then some v0 else alookup rest k

/-- Lookup with a default (Python `d[k]` when the key is known present). -/
def alookupD {β : Type} (l : List (String × β)) (k : String) (d : β) : β :=
  (alookup l k).getD d

/-- Python `d[k] = v` on an insertion-ordered dict: update in place if the
key exists, else append at the end. -/
def dinsert {β : Type} : List (String × β) → String → β → List (String × β)
  | [], k, v => [(k, v)]
  | (k0, v0) :: rest, k, v =>
    if k0 = k then (k0, v) :: rest else (k0, v0) :: dinsert rest k v

/-- Key membership in an association list (Python `k in d`). -/
def dmem {β : Type} (l : List (String × β)) (k : String) : Bool :=
  (alookup l k).isSome

/-- Integer-keyed variant of `alookup`. -/
def ilookup {β : Type} : List (Int × β) → Int → Option β
  | [], _ => none
  | (k0, v0) :: rest, k => if k0 = k then some v0 else ilookup rest k

/-- Integer-keyed variant of `dinsert`. -/
def iinsert {β : Type} : List (Int × β) → Int → β → List (Int × β)
  | [], k, v => [(k, v)]
  | (k0, v0) :: rest, k, v =>
    if k0 = k then (k0, v) :: rest else (k0, v0) :: iinsert rest k v

/-- Nat-keyed variant of `alookup`. -/
def nlookup {β : Type} : List (Nat × β) → Nat → Option β
  | [], _ => none
  | (k0, v0) :: rest, k => if k0 = k then some v0 else nlookup rest k

/-- Nat-keyed variant of `dinsert`. -/
def ninsert {β : Type} : List (Nat × β) → Nat → β → List (Nat × β)
  | [], k, v => [(k, v)]
  | (k0, v0) :: rest, k, v =>
    if k0 = k then (k0, v) :: rest else (k0, v0) :: ninsert rest k v

/-- Decidable equality for `Except`, used to evaluate validators on
concrete records. -/
instance {ε α : Type} [DecidableEq ε] [DecidableEq α] : DecidableEq (Except ε α) := fun a b =>
  match a, b with
  | .ok x, .ok y =>
    if h : x = y then .isTrue (by rw [h]) else .isFalse (by intro hc; cases hc; exact h rfl)
  | .error x, .error y =>
    if h : x = y then .isTrue (by rw [h]) else .isFalse (by intro hc; cases hc; exact h rfl)
  | .ok _, .error _ => .isFalse (by intro hc; cases hc)
  | .error _, .ok _ => .isFalse (by intro hc; cases hc)

/-! ## Numeric primitives (linspector.py lines 238-245, 1655-1696) -/

/-- `calculate_pid` (lines 238-243): protected identifier from a frame id.
`none` models the `ValueError` raised for ids outside [0, 63].
In `p1`, the Python expression is `(~x) & 1` on a 0/1 value `x`,
which equals `(x + 1) % 2` in two's complement. -/
def calculate_pid (frame_id : Int) : Option Nat :=
  if ¬ (0 ≤ frame_id ∧ frame_id ≤ 0x3F) then none
  else
    let id_bits : Nat := frame_id.toNat &&& 0x3F
    let p0 := ((id_bits >>> 0) &&& 1) ^^^ ((id_bits >>> 1) &&& 1) ^^^
              ((id_bits >>> 2) &&& 1) ^^^ ((id_bits >>> 4) &&& 1)
    let p1 := ((((id_bits >>> 1) &&& 1) ^^^ ((id_bits >>> 3) &&& 1) ^^^
                ((id_bits >>> 4) &&& 1) ^^^ ((id_bits >>> 5) &&& 1)) + 1) % 2
    some ((id_bits ||| (p0 <<< 6) ||| (p1 <<< 7)) &&& 0xFF)

/-- Iteration core of the carry-folding loop of `calculate_checksum`
(lines 1693-1694).  The first argument is a termination bound: each
iteration strictly decreases the running sum, so a bound of `s` always
suffices; `foldCarries_eq` below proves the exact while-loop equation. -/
def foldCarriesGo : Nat → Nat → Nat
  | 0, s => s
  | fuel + 1, s => if 0xFF < s then foldCarriesGo fuel ((s &&& 0xFF) + (s >>> 8)) else s

/-- The carry-folding loop of `calculate_checksum` (lines 1693-1694):
`while sum > 0xFF: sum = (sum & 0xFF) + (sum >> 8)`. -/
def foldCarries (s : Nat) : Nat := foldCarriesGo s s

/-- Python `(~s) & 0xFF` for a nonnegative integer `s` (two's complement
over unbounded integers): equals `255 - s % 256`. -/
def bitNotAnd255 (s : Nat) : Nat := 255 - s % 256

/-- `calculate_checksum` (lines 1655-1696).  The data filter
`[d for d in data_bytes if isinstance(d, int)]` is the identity here since
the embedded data is a list of naturals.  `none` models the `ValueError`
raised for an enhanced PID outside [0, 0xFF]. -/
def calculate_checksum (data_bytes : List Nat) (pid_for_enhanced : Option Int := none) :
    Option Nat :=
  match pid_for_enhanced with
  | some pid =>
    if ¬ (0 ≤ pid ∧ pid ≤ 0xFF) then none
    else some (bitNotAnd255 (foldCarries (pid.toNat + data_bytes.sum)))
  | none =>
    if data_bytes = [] then some 0xFF
    else some (bitNotAnd255 (foldCarries data_bytes.sum))

/-- Reference classic LIN checksum, written from the specification text
(spec section 4.1): sum all data bytes, fold carries while the sum exceeds
0xFF, and complement the low byte.  Used to compare the code against the
specification wording. -/
def specClassicChecksum (data : List Nat) : Nat :=
  bitNotAnd255 (foldCarries data.sum)

/-! ## Python string primitives -/

/-- Python `str.lower()` on an ASCII character. -/
def lowerChar (c : Char) : Char :=
  if 'A' ≤ c ∧ c ≤ 'Z' then Char.ofNat (c.toNat + 32) else c

/-- Python `str.lower()` (the sources only lowercase ASCII text). -/
def pyLower (s : String) : String := ⟨s.data.map lowerChar⟩

/-- Python `s.startswith(pre)`. -/
def pyStartsWith (s pre : String) : Bool :=
  decide (s.data.take pre.data.length = pre.data)

/-! ## Log records (linspector.py lines 108-135) -/

/-- `LogEntry` (lines 108-135), restricted to the fields the analysis
claims observe.  Timestamps and bit-time counts are modelled as exact
rationals. -/
structure LogEntry where
  timestamp : ℚ
  channel : String
  frame_id : String
  frame_id_int : Int
  type : String
  data : List Nat
  raw_line : String
  declared_checksum : Option Nat := none
  csm : Option String := none
  physical_metadata : List (String × String) := []
  event_channel : Option Nat := none
  full_time_tbit : Option ℚ := none
  header_time_tbit : Option ℚ := none
deriving Repr, DecidableEq

/-- A Python exception escaping a validator. -/
inductive PyExn where
  | attributeError
  | indexError
deriving Repr, DecidableEq

/-! ## LIN PID parity validator (linspector.py lines 2292-2308) -/

/-- The expected-PID recomputation inside `validate_id_parity`
(lines 2296-2299); note the result is not masked with 0xFF. -/
def parity_expected_pid (pid : Nat) : Nat :=
  let raw_id := pid &&& 0x3F
  let p0 := ((raw_id >>> 0) ^^^ (raw_id >>> 1) ^^^ (raw_id >>> 2) ^^^ (raw_id >>> 4)) &&& 1
  let p1 := (((raw_id >>> 1) ^^^ (raw_id >>> 3) ^^^ (raw_id >>> 4) ^^^ (raw_id >>> 5)) + 1) % 2
  raw_id ||| (p0 <<< 6) ||| (p1 <<< 7)

/-- `validate_id_parity` (lines 2292-2308): returns the key of the
parity-error bucket recorded for the entry, or `none` when no bucket is
touched. -/
def validate_id_parity (channel : String) (pid : Int) : Option Int :=
  if channel ≠ "LIN" ∨ pid < 0x40 then none
  else
    if (parity_expected_pid pid.toNat : Int) ≠ pid then some pid else none

/-! ## LIN checksum validator (linspector.py lines 2073-2100) -/

/-- `validate_lin_checksum` (lines 2073-2100): returns
`.ok (some (id, expected, observed))` when a checksum-error bucket keyed
by that triple is recorded, `.ok none` when the validator returns without
recording, and `.error e` when the Python code raises.  Line 2076 reads
`if not entry.data and entry.csm.lower() != 'enhanced'`, which evaluates
`None.lower()` when the data list is empty and `csm` is absent. -/
def validate_lin_checksum (entry : LogEntry) : Except PyExn (Option (Int × Nat × Nat)) :=
  if entry.channel ≠ "LIN" ∨ pyLower entry.type ≠ "rx" ∨ entry.declared_checksum = none then
    .ok none
  else
    match entry.declared_checksum with
    | none => .ok none
    | some declared =>
      let rest : Except PyExn (Option (Int × Nat × Nat)) :=
        let checksum_type := pyLower (entry.csm.getD "")
        let data_for_checksum : Option (List Nat) :=
          if checksum_type = "enhanced" then
            match calculate_pid entry.frame_id_int with
            | none => none          -- `except Exception: return` (lines 2086-2087)
            | some pid => some (pid :: entry.data)
          else some entry.data
        match data_for_checksum with
        | none => .ok none
        | some dfc =>
          match calculate_checksum dfc none with
          | none => .ok none        -- `except Exception: return` (lines 2090-2091)
          | some expected =>
            if expected ≠ declared then
              .ok (some (entry.frame_id_int, expected, declared))
            else .ok none
      if entry.data = [] then
        match entry.csm with
        | none => .error .attributeError    -- `entry.csm.lower()` on None
        | some c => if pyLower c ≠ "enhanced" then .ok none else rest
      else rest

/-! ## Gateway value comparison (linspector.py lines 244-245, 935-993) -/

/-- `convert_signal_value` (lines 244-245): linear scaling. -/
def convert_signal_value (raw_value : Int) (factor offset : ℚ) : ℚ :=
  (raw_value : ℚ) * factor + offset

/-- `PHYSICAL_COMPARISON_EPSILON` (line 188). -/
def PHYSICAL_COMPARISON_EPSILON : ℚ := 1 / 1000000

/-- The comparison-relevant view of a signal, as assembled by
`_get_comparison_details` (lines 948-956); `length` is optional because a
`DBCSignal.length` may be `None`. -/
structure ComparisonDetails where
  factor : ℚ
  offset : ℚ
  logical_map : List (Int × String)
  is_signed : Bool
  length : Option Int
  encoding_type : String
  unit : String
deriving Repr, DecidableEq

/-- `_get_comparison_details` (lines 935-957), over the per-network
signal-name dictionaries. -/
def _get_comparison_details (signal_name network_type : String)
    (ldf_signals_by_name dbc_signals_by_name : List (String × ComparisonDetails)) :
    Option ComparisonDetails :=
  if network_type = "LIN" then alookup ldf_signals_by_name signal_name
  else if pyStartsWith network_type "CAN" then alookup dbc_signals_by_name signal_name
  else none

/-- Python `x & (1 << (len - 1)) != 0` on an unbounded two's-complement
integer: bit `len - 1` of `x` is set. -/
def pySignBitSet (x : Int) (lenBits : Nat) : Bool :=
  2 ^ (lenBits - 1) ≤ x.emod (2 ^ lenBits)

/-- The per-side sign extension inside `compare_gateway_values`
(lines 975-980 and 982-987). -/
def gatewaySignExtend (raw : Int) (details : ComparisonDetails) : Int :=
  match details.length with
  | some len =>
    if details.is_signed ∧ 0 < len ∧ pySignBitSet raw len.toNat then raw - 2 ^ len.toNat
    else raw
  | none => raw

/-- `compare_gateway_values` (lines 958-993). -/
def compare_gateway_values (source_val_raw target_val_raw : Int)
    (source_details target_details : ComparisonDetails) : Bool × String :=
  let src_has_logic := (ilookup source_details.logical_map source_val_raw).isSome
  let tgt_has_logic := (ilookup target_details.logical_map target_val_raw).isSome
  if src_has_logic ∧ tgt_has_logic then
    (source_val_raw = target_val_raw, "raw_logical")
  else if ¬ src_has_logic ∧ ¬ tgt_has_logic then
    let src_val_phys := convert_signal_value (gatewaySignExtend source_val_raw source_details)
      source_details.factor source_details.offset
    let tgt_val_phys := convert_signal_value (gatewaySignExtend target_val_raw target_details)
      target_details.factor target_details.offset
    (|src_val_phys - tgt_val_phys| < PHYSICAL_COMPARISON_EPSILON, "physical")
  else
    (false, "hybrid_mismatch")

/-! ## Gateway correlation post-pass (linspector.py lines 1434-1441, 2461-2524) -/

/-- The endpoint names stored in `mapping_info` that the post-pass reads
(lines 2475-2476). -/
structure MappingInfo where
  source_signal : String
  source_network : String
  target_signal : String
  target_network : String
deriving Repr, DecidableEq

/-- A recorded mismatch example (lines 2511-2522). -/
structure MismatchExample where
  ts_source : ℚ
  raw_source : Int
  phys_source : ℚ
  logical_source : String
  ts_target : ℚ
  raw_target : Int
  phys_target : ℚ
  logical_target : String
  type : String
  latency_ms : ℚ
deriving Repr, DecidableEq

/-- One entry of `log_stats['gateway_results']` (initialised at
lines 1434-1441).  The float('inf') / float('-inf') sentinels of the
latency min/max are rendered as `none`. -/
structure GatewayResult where
  comparisons : Nat
  -- the source field is named `matches`; that word is a Lean keyword
  matches_count : Nat
  mismatches_value : Nat
  mismatches_type : Nat
  mismatches_timing : Nat
  latency_count : Nat
  latency_sum : ℚ
  latency_min_max : Option (ℚ × ℚ)
  mismatch_examples : List MismatchExample
  mapping_info : Option MappingInfo
deriving Repr, DecidableEq

/-- The defaultdict factory for `gateway_results` (lines 1434-1441). -/
def initializeGatewayResult : GatewayResult :=
  { comparisons := 0, matches_count := 0, mismatches_value := 0, mismatches_type := 0,
    mismatches_timing := 0, latency_count := 0, latency_sum := 0,
    latency_min_max := none, mismatch_examples := [], mapping_info := none }

/-- The monotone source-pointer advance (lines 2484-2485): skip source
events with `ts < ts_target - tolerance`.  The pointer is modelled by
keeping the remaining suffix of the source list. -/
def gatewayAdvance (tol tt : ℚ) : List (ℚ × Int) → List (ℚ × Int)
  | [] => []
  | (ts, r) :: rest => if ts < tt - tol then gatewayAdvance tol tt rest else (ts, r) :: rest

/-- The candidate scan (lines 2487-2492): the last source event with
`ts_source < ts_target`, scanning from the pointer and stopping at the
first event with `ts_source ≥ ts_target`. -/
def gatewayLastBefore (tt : ℚ) : List (ℚ × Int) → Option (ℚ × Int)
  | [] => none
  | (ts, r) :: rest =>
    if tt ≤ ts then none
    else
      match gatewayLastBefore tt rest with
      | some c => some c
      | none => some (ts, r)

/-- Body of the per-target loop of `_post_process_gateway_correlation`
(lines 2483-2524) for one target event. -/
def gatewayProcessTarget (tol : ℚ) (srcD tgtD : ComparisonDetails)
    (st : List (ℚ × Int) × GatewayResult) (tgt : ℚ × Int) :
    List (ℚ × Int) × GatewayResult :=
  let (tt, rt) := tgt
  let sources := gatewayAdvance tol tt st.1
  let res := { st.2 with comparisons := st.2.comparisons + 1 }
  match gatewayLastBefore tt sources with
  | none => (sources, { res with mismatches_timing := res.mismatches_timing + 1 })
  | some (ts, rs) =>
    let latency := tt - ts
    let res :=
      if 0 ≤ latency then
        { res with latency_count := res.latency_count + 1,
                   latency_sum := res.latency_sum + latency,
                   latency_min_max := some (match res.latency_min_max with
                     | none => (latency, latency)
                     | some (lo, hi) => (min lo latency, max hi latency)) }
      else res
    let (m, c_type) := compare_gateway_values rs rt srcD tgtD
    if m then (sources, { res with matches_count := res.matches_count + 1 })
    else
      let ex : MismatchExample :=
        { ts_source := ts, raw_source := rs,
          phys_source := convert_signal_value rs srcD.factor srcD.offset,
          logical_source := (ilookup srcD.logical_map rs).getD "-",
          ts_target := tt, raw_target := rt,
          phys_target := convert_signal_value rt tgtD.factor tgtD.offset,
          logical_target := (ilookup tgtD.logical_map rt).getD "-",
          type := c_type, latency_ms := latency * 1000 }
      if c_type = "hybrid_mismatch" then
        (sources, { res with mismatches_type := res.mismatches_type + 1,
                             mismatch_examples := res.mismatch_examples ++ [ex] })
      else
        (sources, { res with mismatches_value := res.mismatches_value + 1,
                             mismatch_examples := res.mismatch_examples ++ [ex] })

/-- The whole per-mapping target loop (lines 2480-2524). -/
def correlateMapping (tol : ℚ) (srcD tgtD : ComparisonDetails)
    (sources targets : List (ℚ × Int)) (res : GatewayResult) : GatewayResult :=
  (targets.foldl (gatewayProcessTarget tol srcD tgtD) (sources, res)).2

/-- One iteration of the mapping loop of
`_post_process_gateway_correlation` (lines 2466-2524).  The defaultdict
access `log_stats['gateway_results'][map_idx]` materialises a zeroed
entry when the index is absent. -/
def postProcessGatewayStep (tol : ℚ)
    (ldf_sigs dbc_sigs : List (String × ComparisonDetails))
    (source_events : List (Nat × List (ℚ × Int)))
    (results : List (Nat × GatewayResult)) (item : Nat × List (ℚ × Int)) :
    List (Nat × GatewayResult) :=
  let (map_idx, targets) := item
  let sources := (nlookup source_events map_idx).getD []
  if sources = [] ∨ targets = [] then results
  else
    let res := (nlookup results map_idx).getD initializeGatewayResult
    let results := ninsert results map_idx res
    match res.mapping_info with
    | none => results
    | some mi =>
      match _get_comparison_details mi.source_signal mi.source_network ldf_sigs dbc_sigs,
            _get_comparison_details mi.target_signal mi.target_network ldf_sigs dbc_sigs with
      | some srcD, some tgtD =>
        ninsert results map_idx (correlateMapping tol srcD tgtD sources targets res)
      | _, _ => results

/-- `_post_process_gateway_correlation` (lines 2461-2524): iterate the
target-event dictionary, updating the per-mapping results. -/
def _post_process_gateway_correlation (gateway_tolerance_s : ℚ)
    (ldf_sigs dbc_sigs : List (String × ComparisonDetails))
    (gateway_results : List (Nat × GatewayResult))
    (source_events target_events : List (Nat × List (ℚ × Int))) :
    List (Nat × GatewayResult) :=
  target_events.foldl (postProcessGatewayStep gateway_tolerance_s ldf_sigs dbc_sigs source_events)
    gateway_results

/-- The outcome-counter balance of a gateway result (spec section 8). -/
def gwInvariant (r : GatewayResult) : Prop :=
  r.comparisons = r.matches_count + r.mismatches_value + r.mismatches_type + r.mismatches_timing

instance (r : GatewayResult) : Decidable (gwInvariant r) := by
  unfold gwInvariant; infer_instance

/-! ## Schedule grouping (linspector.py lines 656-688) -/

/-- Code-point comparison of character lists (Python string `<=`). -/
def leChars : List Char → List Char → Bool
  | [], _ => true
  | _ :: _, [] => false
  | a :: as, b :: bs => if a < b then true else if b < a then false else leChars as bs

/-- Python string `<=` (code-point lexicographic). -/
def pyStrLe (a b : String) : Bool := leChars a.data b.data

/-- Insertion step of `sortStrings`. -/
def insertSorted (x : String) : List String → List String
  | [] => [x]
  | y :: rest => if pyStrLe x y then x :: y :: rest else y :: insertSorted x rest

/-- Python `sorted` on a list of strings (insertion sort; stability is
irrelevant because dictionary keys are distinct). -/
def sortStrings : List String → List String
  | [] => []
  | x :: rest => insertSorted x (sortStrings rest)

/-- One schedule-table entry `{'frame_name': ..., 'delay_ms': ...}`
(lines 536-539). -/
structure SchedEntry where
  frame_name : String
  delay_ms : Nat
deriving Repr, DecidableEq

/-- Lookup keyed by schedule content.  The source serialises the entry
list with `json.dumps(entries, sort_keys=True)` and hashes it with md5
(lines 672-673); the dump is injective on the `(frame_name, delay_ms)`
sequence and md5 is modelled as collision-free, so the hash key is
modelled as the entry list itself. -/
def clookup : List (List SchedEntry × String) → List SchedEntry → Option String
  | [], _ => none
  | (c0, r0) :: rest, c => if c0 = c then some r0 else clookup rest c

/-- The grouping scan of `group_equivalent_schedules` (lines 664-683):
iterate the sorted original names, threading the hash→representative map
(`seen`).  Returns the original→representative pairs in iteration order
and the representatives in first-seen order.  The non-list schedule
branch of the source (lines 667-670) cannot arise here because every
schedule body is typed as an entry list. -/
def groupScan (schedules : List (String × List SchedEntry)) :
    List String → List (List SchedEntry × String) →
    List (String × String) × List String
  | [], _ => ([], [])
  | n :: rest, seen =>
    let c := alookupD schedules n []
    match clookup seen c with
    | some r =>
      let (m, reps) := groupScan schedules rest seen
      ((n, r) :: m, reps)
    | none =>
      let (m, reps) := groupScan schedules rest ((c, n) :: seen)
      ((n, n) :: m, n :: reps)

/-- The triple returned by `group_equivalent_schedules` (line 688). -/
structure ScheduleGrouping where
  unique_schedules : List (String × List SchedEntry)
  original_to_representative : List (String × String)
  representative_to_all : List (String × List String)
deriving Repr, DecidableEq

/-- `group_equivalent_schedules` (lines 656-688). -/
def group_equivalent_schedules (schedules : List (String × List SchedEntry)) :
    ScheduleGrouping :=
  let sorted_names := sortStrings (schedules.map Prod.fst)
  let scan := groupScan schedules sorted_names []
  { unique_schedules := scan.2.map (fun r => (r, alookupD schedules r [])),
    original_to_representative := scan.1,
    representative_to_all := scan.2.map (fun r =>
      (r, sortStrings (((scan.1.filter (fun p => p.2 = r)).map Prod.fst).dedup))) }

/-! ## DBC channel aggregation (linspector.py lines 80-107, 136-142, 1989-2044) -/

/-- `DBCSignal` (lines 80-94), restricted to the fields the aggregation
claims observe (the scaling fields play no role in channel merging). -/
structure DBCSignalData where
  name : String
  start_bit : Option Int := none
  length : Option Int := none
  is_big_endian : Bool := true
  is_signed : Bool := false
deriving Repr, DecidableEq

/-- `DBCMessage` (lines 95-107), as produced by `parse_dbc_single_file`. -/
structure DBCMessageData where
  id : Nat
  name : String
  dlc : Option Nat
  node_name : Option String
  signals : List DBCSignalData
  attributes : List (String × String) := []
deriving Repr, DecidableEq

/-- `AggregatedMessageData` (lines 136-142). -/
structure AggMessageData where
  name : String
  id : Nat
  signals_dict : List (String × DBCSignalData)
  dlc : Option Nat
  node_name : Option String
  attributes : List (String × String)
deriving Repr, DecidableEq

/-- A parsed DBC file, abstracting `parse_dbc_single_file`: the message
dictionary (in insertion order) and the file's `Baudrate` attribute. -/
structure ParsedDbcFile where
  messages : List (Nat × DBCMessageData)
  baudrate : Option Int
deriving Repr, DecidableEq

/-- The mutable state of `parse_dbcs_for_channel` (lines 1990-1992). -/
structure ChannelAggState where
  channel_messages_aggregated : List (Nat × AggMessageData)
  first_baudrate_found : Option Int
  global_baud : Option Int
deriving Repr, DecidableEq

/-- Lines 1996-2014: insert a new aggregation entry or merge into the
existing one (signals union by name with later wins, DLC and sender fill
if previously absent, attributes merged). -/
def aggregateOneMessage (st : ChannelAggState) (msg_id : Nat) (msg : DBCMessageData) :
    ChannelAggState :=
  match nlookup st.channel_messages_aggregated msg_id with
  | none =>
    let entry : AggMessageData :=
      { name := msg.name, id := msg.id,
        signals_dict := msg.signals.foldl (fun d s => dinsert d s.name s) [],
        dlc := msg.dlc, node_name := msg.node_name, attributes := msg.attributes }
    { st with channel_messages_aggregated :=
        ninsert st.channel_messages_aggregated msg_id entry }
  | some existing =>
    let merged :=
      { existing with
        signals_dict := msg.signals.foldl (fun d s => dinsert d s.name s) existing.signals_dict,
        dlc := if existing.dlc = none ∧ msg.dlc ≠ none then msg.dlc else existing.dlc,
        node_name := if existing.node_name = none ∧ msg.node_name ≠ none then msg.node_name
                     else existing.node_name,
        attributes := msg.attributes.foldl (fun d p => dinsert d p.1 p.2) existing.attributes }
    { st with channel_messages_aggregated :=
        ninsert st.channel_messages_aggregated msg_id merged }

/-- Lines 2023-2030: the per-message else branch taken when the file has
no `Baudrate` attribute; it re-merges the signals and overwrites the name,
DLC and sender of the aggregation with this message's values. -/
def aggregateNoBaudMerge (st : ChannelAggState) (msg_id : Nat) (msg : DBCMessageData) :
    ChannelAggState :=
  match nlookup st.channel_messages_aggregated msg_id with
  | none => st
  | some existing =>
    let merged :=
      { existing with
        signals_dict := msg.signals.foldl (fun d s => dinsert d s.name s) existing.signals_dict,
        name := msg.name, dlc := msg.dlc, node_name := msg.node_name }
    { st with channel_messages_aggregated :=
        ninsert st.channel_messages_aggregated msg_id merged }

/-- The per-file message loop (lines 1996-2030).  The `Baudrate` check
sits inside the loop: a mismatch raises `ValueError` (line 2022), which
the per-file `except` swallows, abandoning the rest of this file only. -/
def aggregateFileMessages (fileBaud : Option Int) :
    List (Nat × DBCMessageData) → ChannelAggState → ChannelAggState
  | [], st => st
  | (msg_id, msg) :: rest, st =>
    let st := aggregateOneMessage st msg_id msg
    match fileBaud with
    | some fb =>
      match st.first_baudrate_found with
      | none =>
        aggregateFileMessages fileBaud rest
          { st with first_baudrate_found := some fb, global_baud := some fb }
      | some f0 =>
        if f0 ≠ fb then st      -- raise ValueError, caught at the file level
        else aggregateFileMessages fileBaud rest st
    | none =>
      aggregateFileMessages fileBaud rest (aggregateNoBaudMerge st msg_id msg)

/-- The final `DBCMessage` view rebuilt from an aggregation entry
(lines 2034-2043). -/
def finalizeAggMessage (agg : AggMessageData) : DBCMessageData :=
  { name := agg.name, id := agg.id, signals := agg.signals_dict.map Prod.snd,
    dlc := agg.dlc, node_name := agg.node_name, attributes := agg.attributes }

/-- `parse_dbcs_for_channel` (lines 1989-2044), over the per-file parse
results.  Returns the merged per-channel message map and the aggregated
`Baudrate` attribute. -/
def parse_dbcs_for_channel (files : List ParsedDbcFile) :
    List (Nat × DBCMessageData) × Option Int :=
  let st := files.foldl
    (fun st f => aggregateFileMessages f.baudrate f.messages st)
    { channel_messages_aggregated := [], first_baudrate_found := none, global_baud := none }
  (st.channel_messages_aggregated.map (fun p => (p.1, finalizeAggMessage p.2)), st.global_baud)

/-- A single CAN message used in the baud-conflict fixture. -/
def dbcMsgA : DBCMessageData :=
  { id := 100, name := "MsgA", dlc := some 8, node_name := some "ECU1",
    signals := [{ name := "SigA" }] }

/-- A second CAN message used in the baud-conflict fixture. -/
def dbcMsgB : DBCMessageData :=
  { id := 200, name := "MsgB", dlc := some 4, node_name := some "ECU2",
    signals := [{ name := "SigB" }] }

/-- A one-message DBC file with an explicit baud rate of 19200. -/
def dbcFileA : ParsedDbcFile := { messages := [(100, dbcMsgA)], baudrate := some 19200 }

/-- A one-message DBC file with a conflicting explicit baud rate of 9600. -/
def dbcFileB : ParsedDbcFile := { messages := [(200, dbcMsgB)], baudrate := some 9600 }

/-! ## Schedule adherence (linspector.py lines 748-896, 1416, 1420) -/

/-- One event of a schedule cycle log (lines 792-793), flattened: the
`details` dictionary carries `trigger_frame` for Cycle Start and
`expected`/`observed` for Sequence Mismatch. -/
structure CycleEvent where
  ts : ℚ
  type : String
  trigger_frame : String := ""
  expected : List String := []
  observed : String := ""
deriving Repr, DecidableEq

/-- A finalized cycle record (lines 800-805). -/
structure CycleRecord where
  id : Nat
  schedule_name : String
  start_ts : ℚ
  end_ts : ℚ
  status : String
  events : List CycleEvent
  had_timing_errors : Bool
deriving Repr, DecidableEq

/-- A `schedule_analysis` global error (line 828): timestamp, type and
offending frame name. -/
structure GlobalScheduleError where
  ts : ℚ
  type : String
  frame_name : String
deriving Repr, DecidableEq

/-- `log_stats['schedule_analysis']` (line 1416). -/
structure ScheduleAnalysis where
  cycles : List CycleRecord
  global_errors : List GlobalScheduleError
deriving Repr, DecidableEq

/-- `log_stats['schedule_runtime_state']` (line 1420).  The `id` key is
absent until the first cycle start (line 823), hence optional. -/
structure ScheduleRuntimeState where
  active_schedules : List String
  current_index : Nat
  last_event_timestamp : Option ℚ
  cycle_start_timestamp : Option ℚ
  cycle_log : List CycleEvent
  cycle_id : Nat
  id : Option Nat := none
  has_timing_errors : Bool
deriving Repr, DecidableEq

/-- The initial schedule runtime state (line 1420). -/
def initialScheduleRuntimeState : ScheduleRuntimeState :=
  { active_schedules := [], current_index := 0, last_event_timestamp := none,
    cycle_start_timestamp := none, cycle_log := [], cycle_id := 0,
    has_timing_errors := false }

/-- `_reset_state` (lines 786-791); the `id` key is left untouched. -/
def schedResetState (st : ScheduleRuntimeState) : ScheduleRuntimeState :=
  { st with
    active_schedules := [], current_index := 0, last_event_timestamp := none,
    cycle_start_timestamp := none, cycle_log := [], cycle_id := st.cycle_id + 1,
    has_timing_errors := false }

/-- `_log_cycle_event` (lines 792-793). -/
def schedLogEvent (st : ScheduleRuntimeState) (ev : CycleEvent) : ScheduleRuntimeState :=
  { st with cycle_log := st.cycle_log ++ [ev] }

/-- `_finalize_cycle` (lines 794-806).  Python truthiness: the guard
`if not state.get('cycle_start_timestamp')` drops the cycle record both
when the start timestamp is absent and when it is exactly 0.0. -/
def schedFinalizeCycle (current_ts : ℚ) (status : String)
    (st : ScheduleRuntimeState) (an : ScheduleAnalysis) :
    ScheduleRuntimeState × ScheduleAnalysis :=
  if st.cycle_start_timestamp = none ∨ st.cycle_start_timestamp = some 0 then
    (schedResetState st, an)
  else
    let final_schedule_name :=
      match st.active_schedules with
      | [s] => s
      | _ => "Ambiguous"
    let an :=
      if st.cycle_log ≠ [] then
        { an with cycles := an.cycles ++
            [{ id := st.id.getD 0, schedule_name := final_schedule_name,
               start_ts := (st.cycle_start_timestamp).getD 0, end_ts := current_ts,
               status := status, events := st.cycle_log,
               had_timing_errors := st.has_timing_errors }] }
      else an
    (schedResetState st, an)

/-- `check_and_finalize_if_complete` (lines 807-814): completed when the
sole surviving schedule has been fully traversed. -/
def schedCheckComplete (schedules : List (String × List SchedEntry)) (current_ts : ℚ)
    (st : ScheduleRuntimeState) (an : ScheduleAnalysis) :
    Bool × ScheduleRuntimeState × ScheduleAnalysis :=
  match st.active_schedules with
  | [sched_name] =>
    if (alookupD schedules sched_name []).length ≤ st.current_index then
      let st := schedLogEvent st { ts := current_ts, type := "Cycle Completed" }
      let (st, an) := schedFinalizeCycle current_ts "Completed" st an
      (true, st, an)
    else (false, st, an)
  | _ => (false, st, an)

/-- The candidate schedules whose first slot is the observed frame
(line 818): dictionary order filtered, then sorted. -/
def schedCandidates (schedules : List (String × List SchedEntry))
    (current_frame_name : String) : List String :=
  sortStrings ((schedules.filter
    (fun p => p.2 ≠ [] ∧ (p.2.head?.map SchedEntry.frame_name) = some current_frame_name)).map
      Prod.fst)

/-- The empty-cursor branch of the dispatch loop (lines 817-829): either
start a new cycle at index 1 or record an Intrusion Frame global error. -/
def schedStartBranch (schedules : List (String × List SchedEntry))
    (current_frame_name : String) (current_ts : ℚ)
    (st : ScheduleRuntimeState) (an : ScheduleAnalysis) :
    ScheduleRuntimeState × ScheduleAnalysis :=
  let candidate_schedules := schedCandidates schedules current_frame_name
  if candidate_schedules ≠ [] then
    let st := { st with
      active_schedules := candidate_schedules, current_index := 1,
      last_event_timestamp := some current_ts,
      cycle_start_timestamp := some current_ts, id := some st.cycle_id }
    let st := schedLogEvent st
      { ts := current_ts, type := "Cycle Start", trigger_frame := current_frame_name }
    let (_, st, an) := schedCheckComplete schedules current_ts st an
    (st, an)
  else
    (st, { an with global_errors := an.global_errors ++
      [{ ts := current_ts, type := "Intrusion Frame", frame_name := current_frame_name }] })

/-- Insertion into `expected_frames_info` (lines 836-839): append the
schedule to the frame's list, creating the key on first sight. -/
def efiInsert (d : List (String × List String)) (frame_name sched_name : String) :
    List (String × List String) :=
  match alookup d frame_name with
  | some l => dinsert d frame_name (l ++ [sched_name])
  | none => d ++ [(frame_name, [sched_name])]

/-- `expected_frames_info` (lines 832-839): the frames expected at the
cursor index across the active schedules, with their schedules. -/
def expectedFramesInfo (schedules : List (String × List SchedEntry))
    (active : List String) (idx : Nat) : List (String × List String) :=
  active.foldl (fun d sched_name =>
    match (alookupD schedules sched_name []).get? idx with
    | some e => efiInsert d e.frame_name sched_name
    | none => d) []

/-- The slot-timing comparison of the match branch (lines 856-885),
restricted to the `has_timing_errors` flag (the numeric slot and mismatch
accumulators are write-only for the dispatch).  `last_event_timestamp` is
always set while a cycle is active; its absence is read as 0. -/
def schedApplyTiming (schedules : List (String × List SchedEntry))
    (jitter_s tolerance_factor min_abs_tol current_ts : ℚ) (current_idx : Nat)
    (potential_matches : List String) (st : ScheduleRuntimeState) : ScheduleRuntimeState :=
  potential_matches.foldl (fun st sched_name =>
    let expected_delay_ms : ℚ :=
      (((alookupD schedules sched_name []).get? current_idx).map
        (fun e => (e.delay_ms : ℚ))).getD 0
    let observed_delay_s := current_ts - (st.last_event_timestamp).getD 0
    let tolerance_abs := max ((expected_delay_ms / 1000) * tolerance_factor) min_abs_tol + jitter_s
    if ¬ (|observed_delay_s - expected_delay_ms / 1000| ≤ tolerance_abs) then
      { st with has_timing_errors := true }
    else st) st

/-- `validate_schedule_order_and_presence` (lines 748-896).  The
`while True` loop is unrolled: every `continue` runs with a freshly reset
(empty) cursor, so it lands in the start-or-intrusion branch, which always
returns.  The reliability counters and numeric slot statistics are
write-only side tables and are omitted. -/
def validate_schedule_order_and_presence (entry_type : String) (frame_id : Int)
    (current_ts : ℚ) (schedules : List (String × List SchedEntry))
    (ldf_id_to_frame_map : List (Int × String))
    (jitter_s tolerance_factor min_abs_tol : ℚ)
    (st : ScheduleRuntimeState) (an : ScheduleAnalysis) :
    ScheduleRuntimeState × ScheduleAnalysis :=
  if entry_type ≠ "Rx" ∧ entry_type ≠ "TransmErr" ∧ entry_type ≠ "RcvError" then (st, an)
  else
    match ilookup ldf_id_to_frame_map frame_id with
    | none => (st, an)
    | some current_frame_name =>
      if st.active_schedules = [] then
        schedStartBranch schedules current_frame_name current_ts st an
      else
        let current_idx := st.current_index
        let efi := expectedFramesInfo schedules st.active_schedules current_idx
        if efi = [] then
          let (st, an) := schedFinalizeCycle current_ts "Aborted" st an
          schedStartBranch schedules current_frame_name current_ts st an
        else
          match alookup efi current_frame_name with
          | some potential_matches =>
            let st := schedApplyTiming schedules jitter_s tolerance_factor min_abs_tol
              current_ts current_idx potential_matches st
            let st := { st with
              active_schedules := sortStrings potential_matches,
              current_index := st.current_index + 1,
              last_event_timestamp := some current_ts }
            let (_, st, an) := schedCheckComplete schedules current_ts st an
            (st, an)
          | none =>
            let st := schedLogEvent st
              { ts := current_ts, type := "Sequence Mismatch",
                expected := efi.map Prod.fst, observed := current_frame_name }
            let (st, an) := schedFinalizeCycle current_ts "Aborted" st an
            schedStartBranch schedules current_frame_name current_ts st an

/-! ## Concrete records used to evaluate the validators -/

/-- A LIN Rx record whose logged identifier is a full protected identifier
(0x73 is the PID of frame id 0x33), carrying a declared checksum and
CSM = Enhanced. -/
def fullPidEnhancedEntry : LogEntry :=
  { timestamp := 1, channel := "LIN", frame_id := "73", frame_id_int := 0x73,
    type := "Rx", data := [0x00],
    raw_line := "1.000000 Li 73 Rx 00 checksum=00 CSM=Enhanced",
    declared_checksum := some 0x00, csm := some "Enhanced" }

/-- A LIN Rx record with an empty data list, a declared checksum and no
CSM field, as produced by `parse_log` from the line
`0.000000 Li 01 Rx checksum=12`. -/
def emptyDataChecksumEntry : LogEntry :=
  { timestamp := 0, channel := "LIN", frame_id := "01", frame_id_int := 1,
    type := "Rx", data := [], raw_line := "0.000000 Li 01 Rx checksum=12",
    declared_checksum := some 0x12, csm := none }

/-! ## Log line tokenizer (linspector.py lines 145-152 and 2309-2435)

`parse_log` strips each line and tries the compiled patterns in the order
Spike, TransmErr/RcvError, LIN, CANFD, CAN, SleepModeEvent; the first match
yields the record.  The anchored regular expressions are embedded as
character scanners: a greedy class repetition is a maximal run (shortening a
run can never help, because the character that follows a shortened run
belongs to the run class and never to the follower class), and each lazy
`.*?keyword` group is a scan for the earliest position where the whole
keyword-value subpattern matches.  Only ASCII text is modelled. -/

/-- Python `\s` on the characters that occur in log lines. -/
def isWsC (c : Char) : Bool := c = ' ' || c = '\t' || c = '\n' || c = '\r'

/-- Python `\d`. -/
def isDigitC (c : Char) : Bool := 48 ≤ c.toNat && c.toNat ≤ 57

/-- Python `[0-9A-Fa-f]`. -/
def isHexC (c : Char) : Bool :=
  isDigitC c || (65 ≤ c.toNat && c.toNat ≤ 70) || (97 ≤ c.toNat && c.toNat ≤ 102)

/-- Python `\w`, restricted to ASCII. -/
def isWordC (c : Char) : Bool :=
  isDigitC c || (65 ≤ c.toNat && c.toNat ≤ 90) || (97 ≤ c.toNat && c.toNat ≤ 122) || c = '_'

/-- Python `str.strip()`. -/
def pyStrip (cs : List Char) : List Char :=
  ((cs.dropWhile isWsC).reverse.dropWhile isWsC).reverse

/-- A nonempty maximal run of characters of one class (`p+`). -/
def scanRun (p : Char → Bool) (cs : List Char) : Option (List Char × List Char) :=
  if (cs.takeWhile p).isEmpty then none else some (cs.takeWhile p, cs.dropWhile p)

/-- `\s+`. -/
def scanSpaces1 (cs : List Char) : Option (List Char) :=
  (scanRun isWsC cs).map (fun r => r.2)

/-- A case-insensitive literal (the patterns carry `re.IGNORECASE`). -/
def scanLitCI : List Char → List Char → Option (List Char)
  | [], cs => some cs
  | _ :: _, [] => none
  | k :: ks, c :: cs => if lowerChar c = lowerChar k then scanLitCI ks cs else none

/-- A timestamp `\d+\.\d+`, returned as its integer and fraction digit runs. -/
def scanTs (cs : List Char) : Option ((List Char × List Char) × List Char) :=
  match scanRun isDigitC cs with
  | none => none
  | some (ip, r1) =>
    match r1 with
    | '.' :: r2 =>
      match scanRun isDigitC r2 with
      | none => none
      | some (fp, r3) => some ((ip, fp), r3)
    | _ => none

/-- Decimal digits to a number. -/
def natOfDigits (cs : List Char) : Nat := cs.foldl (fun a c => a * 10 + (c.toNat - 48)) 0

/-- The value of one hexadecimal digit. -/
def hexDigitVal (c : Char) : Nat :=
  if isDigitC c then c.toNat - 48 else if 97 ≤ c.toNat then c.toNat - 87 else c.toNat - 55

/-- Hexadecimal digits to a number (`int(s, 16)` on a hex run). -/
def natOfHex (cs : List Char) : Nat := cs.foldl (fun a c => a * 16 + hexDigitVal c) 0

/-- `float(ts)` for a matched `\d+\.\d+` timestamp, as an exact rational. -/
def ratOfTs (ip fp : List Char) : ℚ :=
  (natOfDigits ip : ℚ) + (natOfDigits fp : ℚ) / ((10 : ℚ) ^ fp.length)

/-- One data chunk `\s+[0-9A-Fa-f]\x7b2\x7d` of the `data` group. -/
def scanChunk (cs : List Char) : Option (Nat × List Char) :=
  match scanSpaces1 cs with
  | none => none
  | some r =>
    match r with
    | c1 :: c2 :: rest =>
      if isHexC c1 && isHexC c2 then some (hexDigitVal c1 * 16 + hexDigitVal c2, rest)
      else none
    | _ => none

/-- Greedy repetition of data chunks; the fuel bounds the chunk count. -/
def scanDataChunksGo : Nat → List Char → List Nat × List Char
  | 0, cs => ([], cs)
  | fuel + 1, cs =>
    match scanChunk cs with
    | none => ([], cs)
    | some (b, rest) =>
      let (bs, r2) := scanDataChunksGo fuel rest
      (b :: bs, r2)

/-- The `data` group `(?:\s+[0-9A-Fa-f]\x7b2\x7d)*` (each chunk consumes at
least three characters, so the input length bounds the chunk count). -/
def scanDataChunks (cs : List Char) : List Nat × List Char :=
  scanDataChunksGo cs.length cs

/-- The earliest position where a submatcher succeeds (a lazy `.*?` scan;
every submatcher used here needs at least one character, so the empty tail
never matches). -/
def scanFind {α : Type} (f : List Char → Option α) : List Char → Option α
  | [] => none
  | c :: t =>
    match f (c :: t) with
    | some r => some r
    | none => scanFind f t

/-- Keyword parts separated by `\s*`, with trailing `\s*` (as in
`header\s*time\s*=`). -/
def scanKws : List (List Char) → List Char → Option (List Char)
  | [], cs => some cs
  | k :: rest, cs =>
    match scanLitCI k cs with
    | none => none
    | some r => scanKws rest (r.dropWhile isWsC)

/-- A whole `keyword\s*=\s*value` submatch attempt at one position. -/
def subKV (kws : List (List Char)) (v : List Char → Option (List Char × List Char))
    (cs : List Char) : Option (List Char × List Char) :=
  match scanKws kws cs with
  | none => none
  | some r =>
    match r with
    | '=' :: r2 => v (r2.dropWhile isWsC)
    | _ => none

/-- One optional lazy group `(?:.*?kw\s*=\s*value)?`: the scan either finds
the earliest full submatch and advances past it, or leaves the position
unchanged. -/
def optScan (kws : List (List Char)) (v : List Char → Option (List Char × List Char))
    (st : List Char) : Option (List Char) × List Char :=
  match scanFind (subKV kws v) st with
  | some (cap, rest) => (some cap, rest)
  | none => (none, st)

/-- Value group `(\s*\d+)`: the outer greedy `\s*` already ate the blanks,
so the capture is the digit run. -/
def vNum : List Char → Option (List Char × List Char) := scanRun isDigitC

/-- Value group `(\w+)`. -/
def vWord : List Char → Option (List Char × List Char) := scanRun isWordC

/-- Value group `([0-9A-Fa-f]\x7b2\x7d)`. -/
def vHex2 (cs : List Char) : Option (List Char × List Char) :=
  match cs with
  | c1 :: c2 :: rest => if isHexC c1 && isHexC c2 then some ([c1, c2], rest) else none
  | _ => none

/-- Value group `(\s*\d+\.\d+)`. -/
def vFloat (cs : List Char) : Option (List Char × List Char) :=
  match scanTs cs with
  | some ((ip, fp), r) => some (ip ++ '.' :: fp, r)
  | none => none

/-- Value group `([\d\s]+)`. -/
def vDigitWs : List Char → Option (List Char × List Char) :=
  scanRun (fun c => isDigitC c || isWsC c)

/-- Value group `([\d\.\s]+)`. -/
def vDigitDotWs : List Char → Option (List Char × List Char) :=
  scanRun (fun c => isDigitC c || c = '.' || isWsC c)

/-- Value group `([\d\.]+)`. -/
def vDigitDot : List Char → Option (List Char × List Char) :=
  scanRun (fun c => isDigitC c || c = '.')

/-- `SPIKE_PATTERN` (line 149) and its constructor (lines 2352-2357). -/
def matchSpike (raw : String) (cs0 : List Char) : Option LogEntry := do
  let ((ip, fp), r1) ← scanTs (cs0.dropWhile isWsC)
  let r2 ← scanSpaces1 r1
  let r3 ← scanLitCI "Li".data r2
  let r4 ← scanSpaces1 r3
  let r5 ← scanLitCI "Spike".data r4
  let r6 ← scanSpaces1 r5
  let r7 ← scanLitCI "Rx".data r6
  let r8 ← scanSpaces1 r7
  if r8.isEmpty then none
  else some { timestamp := ratOfTs ip fp, channel := "LIN", frame_id := "Spike",
              frame_id_int := -1, type := "Spike", data := [], raw_line := raw }

/-- `TRANSERR_PATTERN` (line 150) and the error constructor (lines 2358-2380);
the pattern has no timing groups, so both tbit fields stay empty. -/
def matchTransmErr (raw : String) (cs0 : List Char) : Option LogEntry := do
  let ((ip, fp), r1) ← scanTs (cs0.dropWhile isWsC)
  let r2 ← scanSpaces1 r1
  let r3 ← scanLitCI "Li".data r2
  let r4 ← scanSpaces1 r3
  let (idc, r5) ← scanRun isHexC r4
  let r6 ← scanSpaces1 r5
  let r7 ← scanLitCI "TransmErr".data r6
  if (match r7 with | c :: _ => isWordC c | [] => false) then none
  else some { timestamp := ratOfTs ip fp, channel := "LIN", frame_id := String.mk idc,
              frame_id_int := (natOfHex idc : Int), type := "TransmErr", data := [],
              raw_line := raw }

/-- `RCVERR_PATTERN` (line 151) and the error constructor (lines 2358-2380):
an optional hexadecimal id, blanks, an optional digit run, blanks, then the
literal `RcvError:`. -/
def matchRcvErr (raw : String) (cs0 : List Char) : Option LogEntry := do
  let ((ip, fp), r1) ← scanTs (cs0.dropWhile isWsC)
  let r2 ← scanSpaces1 r1
  let r3 ← scanLitCI "Li".data r2
  let r4 ← scanSpaces1 r3
  let (idOpt, r5) :=
    match scanRun isHexC r4 with
    | some (idc, r) => (some idc, r)
    | none => (none, r4)
  let r6 := ((r5.dropWhile isWsC).dropWhile isDigitC).dropWhile isWsC
  let _ ← scanLitCI "RcvError:".data r6
  some { timestamp := ratOfTs ip fp, channel := "LIN",
         frame_id := (match idOpt with | some idc => String.mk idc | none => "RcvError"),
         frame_id_int := (match idOpt with | some idc => (natOfHex idc : Int) | none => -1),
         type := "RcvError", data := [], raw_line := raw }

/-- `LIN_PATTERN` (line 145) and its constructor (lines 2381-2404).  The
greedy optional `dl` group eats a leading all-digit token (its capture is
never read); the keyword groups are scanned in the written order, each
advancing past its match. -/
def matchLIN (raw : String) (cs0 : List Char) : Option LogEntry := do
  let ((ip, fp), r1) ← scanTs (cs0.dropWhile isWsC)
  let r2 ← scanSpaces1 r1
  let r3 ← scanLitCI "Li".data r2
  let r4 ← scanSpaces1 r3
  let (idc, r5) ← scanRun isHexC r4
  let r6 ← scanSpaces1 r5
  let (tyc, r7) ← scanRun isWordC r6
  let r8 :=
    match scanSpaces1 r7 with
    | some r =>
      match scanRun isDigitC r with
      | some (_, rr) => rr
      | none => r7
    | none => r7
  let (dataBytes, r9) := scanDataChunks r8
  let (ck, s1) := optScan ["checksum".data] vHex2 r9
  let (ht, s2) := optScan ["header".data, "time".data] vNum s1
  let (ft, s3) := optScan ["full".data, "time".data] vNum s2
  let (sof, s4) := optScan ["SOF".data] vFloat s3
  let (br, s5) := optScan ["BR".data] vNum s4
  let (brk, s6) := optScan ["break".data] vDigitWs s5
  let (eoh, s7) := optScan ["EOH".data] vFloat s6
  let (eob, s8) := optScan ["EOB".data] vDigitDotWs s7
  let (eofc, s9) := optScan ["EOF".data] vFloat s8
  let (rbr, s10) := optScan ["RBR".data] vNum s9
  let (hbr, s11) := optScan ["HBR".data] vDigitDot s10
  let (hso, s12) := optScan ["HSO".data] vNum s11
  let (rso, s13) := optScan ["RSO".data] vNum s12
  let (csmc, _) := optScan ["CSM".data] vWord s13
  let meta := ([("sof", sof), ("br", br), ("break_info", brk), ("eoh", eoh),
               ("eob", eob), ("eof", eofc), ("rbr", rbr), ("hbr", hbr),
               ("hso", hso), ("rso", rso)] : List (String × Option (List Char))).foldr
      (fun kv acc => match kv.2 with | some v => (kv.1, String.mk v) :: acc | none => acc) []
  some { timestamp := ratOfTs ip fp, channel := "LIN", frame_id := String.mk idc,
         frame_id_int := (natOfHex idc : Int), type := String.mk tyc, data := dataBytes,
         raw_line := raw, declared_checksum := ck.map natOfHex, csm := csmc.map String.mk,
         physical_metadata := meta,
         full_time_tbit := ft.map (fun d => (natOfDigits d : ℚ)),
         header_time_tbit := ht.map (fun d => (natOfDigits d : ℚ)) }

/-- `CANFD_PATTERN` (line 146) and its constructor (lines 2405-2412).  After
the id, the greedy flags group `[\w\s]+` absorbs any word or space text, so
the dl and data groups never capture anything and the data list is empty. -/
def matchCANFD (raw : String) (cs0 : List Char) : Option LogEntry := do
  let ((ip, fp), r1) ← scanTs (cs0.dropWhile isWsC)
  let r2 ← scanSpaces1 r1
  let r3 ← scanLitCI "CANFD".data r2
  let r4 ← scanSpaces1 r3
  let (chc, r5) ← scanRun isDigitC r4
  let r6 ← scanSpaces1 r5
  let (tyc, r7) ← scanRun isWordC r6
  let r8 ← scanSpaces1 r7
  let (idc, _) ← scanRun isHexC r8
  some { timestamp := ratOfTs ip fp, channel := "CANFD" ++ String.mk chc,
         frame_id := String.mk idc, frame_id_int := (natOfHex idc : Int),
         type := String.mk tyc, data := [], raw_line := raw }

/-- `CAN_PATTERN` (line 147) and its constructor (lines 2413-2421).  The
optional `\s+F` marker is taken greedily when the type group still matches
after it; the optional `\s*d\s*(\d+)` group is rewound when incomplete.  The
id group cannot contain the letter x, so `rstrip` of x is the identity and
the numeric id is the plain hexadecimal value. -/
def matchCAN (raw : String) (cs0 : List Char) : Option LogEntry := do
  let ((ip, fp), r1) ← scanTs (cs0.dropWhile isWsC)
  let r2 ← scanSpaces1 r1
  let (chc, r3) ← scanRun isDigitC r2
  let r4 ← scanSpaces1 r3
  let (idc, r5) ← scanRun isHexC r4
  let fTry : Option (List Char × List Char) := do
    let ra ← scanSpaces1 r5
    match ra with
    | c :: rb =>
      if lowerChar c = 'f' then do
        let rc ← scanSpaces1 rb
        scanRun isWordC rc
      else none
    | [] => none
  let (tyc, r6) ← (match fTry with
    | some res => some res
    | none => do
        let ra ← scanSpaces1 r5
        scanRun isWordC ra)
  let r7 :=
    match r6.dropWhile isWsC with
    | c :: rb =>
      if lowerChar c = 'd' then
        match scanRun isDigitC (rb.dropWhile isWsC) with
        | some (_, rc) => rc
        | none => r6
      else r6
    | [] => r6
  let (dataBytes, _) := scanDataChunks r7
  some { timestamp := ratOfTs ip fp, channel := "CAN" ++ String.mk chc,
         frame_id := String.mk idc, frame_id_int := (natOfHex idc : Int),
         type := String.mk tyc, data := dataBytes, raw_line := raw }

/-- `EVENT_PATTERN` (line 148) and its constructor (lines 2422-2428). -/
def matchEvent (raw : String) (cs0 : List Char) : Option LogEntry := do
  let ((ip, fp), r1) ← scanTs (cs0.dropWhile isWsC)
  let r2 ← scanSpaces1 r1
  let r3 ← scanLitCI "Li".data r2
  let r4 ← scanSpaces1 r3
  let r5 ← scanLitCI "SleepModeEvent".data r4
  let r6 ← scanSpaces1 r5
  let (evc, r7) ← scanRun isDigitC r6
  let r8 ← scanSpaces1 r7
  if r8.isEmpty then none
  else some { timestamp := ratOfTs ip fp, channel := "LIN",
              frame_id := "SleepModeEvent", frame_id_int := -1,
              type := "SleepModeEvent", data := [], raw_line := raw,
              event_channel := some (natOfDigits evc) }

/-- One iteration of the reader loop of `parse_log` (lines 2332-2434): strip
the line, skip it when blank, and try the matchers in the order of the
`elif` chain (Spike, TransmErr, RcvError, LIN, CANFD, CAN, SleepModeEvent).
No constructor on a matched line can raise: every captured group converts
cleanly, so the `except` at line 2429 never fires. -/
def parse_log_line (line : String) : Option LogEntry :=
  let cs := pyStrip line.data
  let raw := String.mk cs
  if cs.isEmpty then none
  else
    matchSpike raw cs <|> matchTransmErr raw cs <|> matchRcvErr raw cs <|>
    matchLIN raw cs <|> matchCANFD raw cs <|> matchCAN raw cs <|> matchEvent raw cs

/-- The test guarding the `skipped` counter (lines 2671-2673): a parsed
record on a CAN-prefixed channel with no DBC mapped to it. -/
def isSkippedEntry (valid_can_channels : List String) (e : LogEntry) : Bool :=
  pyStartsWith e.channel "CAN" && !(valid_can_channels.contains e.channel)

/-- One iteration of the record loop of `process_log_file` projected to the
`_internal_parse_stats` counters: `processed` is incremented for every
parsed record (line 2631), `skipped` only for parsed CAN records on
channels with no DBC (line 2672); a line that matches no pattern yields no
record and touches neither counter. -/
def processStep (valid_can_channels : List String) (acc : Nat × Nat) (line : String) :
    Nat × Nat :=
  match parse_log_line line with
  | none => acc
  | some e => (acc.1 + 1, acc.2 + (if isSkippedEntry valid_can_channels e then 1 else 0))

/-- The `(processed, skipped)` counters of `process_log_file` over the lines
of a log (lines 2629-2673). -/
def processAccounting (valid_can_channels : List String) (lines : List String) :
    Nat × Nat :=
  lines.foldl (processStep valid_can_channels) (0, 0)

/-! ## LDF parsing (linspector.py lines 246-605)

`parse_ldf` is embedded projected onto what the claims observe: the frames
map (name, id, publisher, DLC, frame type, associated frames) and the
retained schedule tables.  Signal definitions, encodings and node
attributes only populate the per-frame signal lists and the nodes dict,
which no claim mentions, and are omitted.  The regular expressions follow
the same scanner reading as the log patterns above. -/

/-- The opening brace character (written by code point to keep brace
characters out of string literals). -/
def braceL : Char := Char.ofNat 123

/-- The closing brace character. -/
def braceR : Char := Char.ofNat 125

/-- One attempt of `keyword\s*\x7b` at a fixed position. -/
def kwBraceAt (kw : List Char) (cs : List Char) : Option (List Char) :=
  match scanLitCI kw cs with
  | none => none
  | some r =>
    match r.dropWhile isWsC with
    | c :: r2 => if c = braceL then some r2 else none
    | [] => none

/-- `re.search` for `keyword\s*\x7b`: the earliest matching position,
returning the text after the opening brace. -/
def findKwBrace (kw : List Char) (cs : List Char) : Option (List Char) :=
  scanFind (kwBraceAt kw) cs

/-- The balanced-brace scan of `_extract_block` (lines 594-605): depth
starts at 1 after the opening brace and the block body ends where depth
returns to 0; `none` when the braces never balance. -/
def extractBlockGo (acc : List Char) : Nat → List Char → Option (List Char)
  | _, [] => none
  | depth, c :: t =>
    if c = braceL then extractBlockGo (c :: acc) (depth + 1) t
    else if c = braceR then
      match depth with
      | 0 => none
      | 1 => some acc.reverse
      | d + 2 => extractBlockGo (c :: acc) (d + 1) t
    else extractBlockGo (c :: acc) depth t

/-- `_extract_block(text, keyword)` (lines 594-605). -/
def extract_block (kw : List Char) (cs : List Char) : Option (List Char) :=
  match findKwBrace kw cs with
  | some r => extractBlockGo [] 1 r
  | none => none

/-- `NODE_BLOCK_RE` (line 160): lazy content up to the first closing brace
(no depth matching); the search fails only when no later closing brace
exists, in which case no later starting position can match either. -/
def nodesBlock (cs : List Char) : Option (List Char) :=
  match findKwBrace "Nodes".data cs with
  | none => none
  | some r =>
    if (r.dropWhile (fun c => c ≠ braceR)).isEmpty then none
    else some (r.takeWhile (fun c => c ≠ braceR))

/-- One attempt of `MASTER_NODE_RE` (line 161) at a fixed position,
projected to the master node name; the name is assigned before the
time-base conversion can fail, so only the shape up to `ms` matters. -/
def masterAt (cs : List Char) : Option String := do
  let r1 ← scanLitCI "Master".data cs
  match r1.dropWhile isWsC with
  | ':' :: r3 => do
    let (namec, r4) ← scanRun (fun c => !(isWsC c || c = ',' || c = ';')) (r3.dropWhile isWsC)
    match r4.dropWhile isWsC with
    | ',' :: r6 => do
      let (_, r7) ← scanRun (fun c => isDigitC c || c = '.') (r6.dropWhile isWsC)
      let _ ← scanLitCI "ms".data (r7.dropWhile isWsC)
      some (String.mk namec)
    | _ => none
  | _ => none

/-- `MASTER_NODE_RE.search` over the nodes text (lines 285-290). -/
def findMaster (cs : List Char) : Option String :=
  scanFind masterAt cs

/-- `int(s, 0)` on a stripped token: optional sign, then a `0x`/`0b`/`0o`
literal or a decimal without leading zeros (an all-zero run is plain 0).
Underscore digit grouping is not modelled; no token in the sources uses
it. -/
def pyIntBase0 (s : List Char) : Option Int :=
  let sr : Bool × List Char :=
    match s with
    | '-' :: t => (true, t)
    | '+' :: t => (false, t)
    | t => (false, t)
  let mag : Option Nat :=
    match sr.2 with
    | '0' :: c :: t =>
      if lowerChar c = 'x' then
        if !t.isEmpty && t.all isHexC then some (natOfHex t) else none
      else if lowerChar c = 'b' then
        if !t.isEmpty && t.all (fun d => d = '0' || d = '1') then
          some (t.foldl (fun a d => a * 2 + (d.toNat - 48)) 0)
        else none
      else if lowerChar c = 'o' then
        if !t.isEmpty && t.all (fun d => 48 ≤ d.toNat && d.toNat ≤ 55) then
          some (t.foldl (fun a d => a * 8 + (d.toNat - 48)) 0)
        else none
      else if (c :: t).all (fun d => d = '0') then some 0
      else none
    | [] => none
    | r => if r.all isDigitC then some (natOfDigits r) else none
  match mag with
  | none => none
  | some n => some (if sr.1 then -(n : Int) else (n : Int))

/-- The id alternation `(0x[0-9A-Fa-f]+|\d+)` of `FRAME_DEF_RE` and
`DIAG_FRAME_DEF_RE` (lines 184, 187): the hex branch is tried first; when
it fails on a bare `0x`, the decimal branch can only take the leading `0`,
after which the required separator fails exactly as in the regex. -/
def scanFrameId (cs : List Char) : Option (List Char × List Char) :=
  match cs with
  | c0 :: c1 :: r =>
    if c0 = '0' && lowerChar c1 = 'x' then
      match scanRun isHexC r with
      | some (h, r2) => some (c0 :: c1 :: h, r2)
      | none => scanRun isDigitC cs
    else scanRun isDigitC cs
  | _ => scanRun isDigitC cs

/-- A single frame, projected from `LDFFrame` (lines 55-73). -/
structure LdfFrame where
  name : String
  id : Option Int := none
  publisher : Option String := none
  dlc : Option Nat := none
  frame_type : String := "standard"
  associated_frames : List String := []
deriving Repr, DecidableEq

/-- The projected result of `parse_ldf`. -/
structure LdfModel where
  master : Option String
  frames : List (String × LdfFrame)
  schedules : List (String × List SchedEntry)
deriving Repr, DecidableEq

/-- The tail test of `FRAME_BLOCK_RE` (line 183): the closing brace must be
followed by blanks and then one of the section keywords or the end of the
text (`\s*` already absorbs a trailing newline before `$`). -/
def frameBlockTailOk (cs : List Char) : Bool :=
  let r := cs.dropWhile isWsC
  r.isEmpty || (scanLitCI "Diagnostic_frames".data r).isSome ||
    (scanLitCI "Schedule_tables".data r).isSome ||
    (scanLitCI "Signal_encoding_types".data r).isSome ||
    (scanLitCI "Node_attributes".data r).isSome

/-- Lazy block content `(.*?)\x7d` with a constraint on what follows the
closing brace: the body extends to the first closing brace whose tail is
accepted. -/
def lazyBodyGo (tailOk : List Char → Bool) (acc : List Char) : List Char → Option (List Char)
  | [] => none
  | c :: t =>
    if c = braceR && tailOk t then some acc.reverse
    else lazyBodyGo tailOk (c :: acc) t

/-- `FRAME_BLOCK_RE.search` (lines 183, 403): the earliest occurrence of
`frames\s*\x7b` (also inside a longer word such as `Sporadic_frames`, as in
the regex) whose lazy body has an accepted tail. -/
def frameBlock (cs : List Char) : Option (List Char) :=
  scanFind (fun p => (kwBraceAt "Frames".data p).bind (lazyBodyGo frameBlockTailOk [])) cs

/-- One attempt of `FRAME_DEF_RE` (line 184) at a fixed position: name,
id literal, publisher, DLC and a braced signal body (dropped: the claims
do not observe frame signals). -/
def frameDefAt (cs : List Char) :
    Option ((List Char × List Char × List Char × List Char) × List Char) := do
  let (namec, r1) ← scanRun isWordC cs
  match r1.dropWhile isWsC with
  | ':' :: r3 => do
    let (fidc, r4) ← scanFrameId (r3.dropWhile isWsC)
    match r4.dropWhile isWsC with
    | ',' :: r6 => do
      let (pubc, r7) ← scanRun isWordC (r6.dropWhile isWsC)
      match r7.dropWhile isWsC with
      | ',' :: r9 => do
        let (dlcc, r10) ← scanRun isDigitC (r9.dropWhile isWsC)
        match r10.dropWhile isWsC with
        | b :: r12 =>
          if b = braceL then
            match r12.dropWhile (fun c => c ≠ braceR) with
            | _ :: r14 => some ((namec, fidc, pubc, dlcc), r14)
            | [] => none
          else none
        | [] => none
      | _ => none
    | _ => none
  | _ => none

/-- `findall`: repeatedly match at the leftmost possible position and
continue after each match.  Every matcher used here consumes at least one
character, so the input length bounds the iteration count. -/
def findAllGo {α : Type} (f : List Char → Option (α × List Char)) :
    Nat → List Char → List α
  | 0, _ => []
  | fuel + 1, cs =>
    match cs with
    | [] => []
    | c :: t =>
      match f (c :: t) with
      | some (a, rest) => a :: findAllGo f fuel rest
      | none => findAllGo f fuel t

/-- `pattern.findall(text)`. -/
def findAll {α : Type} (f : List Char → Option (α × List Char)) (cs : List Char) : List α :=
  findAllGo f cs.length cs

/-- The standard-frame loop body (lines 404-440): `int(fid, 0)` failure
skips the definition (`int(dlc)` on a digit run cannot fail); otherwise the
frame is stored with its literal id, publisher and DLC — no range check is
applied to any of them. -/
def addStdFrame (acc : List (String × LdfFrame))
    (g : List Char × List Char × List Char × List Char) : List (String × LdfFrame) :=
  match pyIntBase0 g.2.1 with
  | none => acc
  | some v =>
    dinsert acc (String.mk g.1)
      { name := String.mk g.1, id := some v, publisher := some (String.mk g.2.2.1),
        dlc := some (natOfDigits g.2.2.2), frame_type := "standard" }

/-- Python `str.splitlines()` restricted to newline separators (the extra
empty tail line after a trailing newline is blank and skipped by every
caller). -/
def splitLinesGo (cur : List Char) : List Char → List (List Char)
  | [] => [cur.reverse]
  | c :: t => if c = '\n' then cur.reverse :: splitLinesGo [] t else splitLinesGo (c :: cur) t

/-- Line splitting of a block body. -/
def splitLines (cs : List Char) : List (List Char) := splitLinesGo [] cs

/-- Python `s.split(sep=",")`. -/
def splitCommaGo (cur : List Char) : List Char → List (List Char)
  | [] => [cur.reverse]
  | c :: t => if c = ',' then cur.reverse :: splitCommaGo [] t else splitCommaGo (c :: cur) t

/-- Comma splitting of a definition line. -/
def splitComma (cs : List Char) : List (List Char) := splitCommaGo [] cs

/-- The sporadic-frames loop body (lines 445-465): skip blank, comment and
colon-free lines; keep the associated names that are nonempty and already
in the frames map; drop the definition when none survive, else store a
sporadic frame (id, publisher and DLC stay empty). -/
def sporadicLineStep (frames : List (String × LdfFrame)) (lnc : List Char) :
    List (String × LdfFrame) :=
  let l := pyStrip lnc
  if l.isEmpty then frames
  else if (match l with | '/' :: '/' :: _ => true | _ => false) then frames
  else if !(l.contains ':') then frames
  else
    let name := String.mk (pyStrip (l.takeWhile (fun c => c ≠ ':')))
    let rhs := ((l.dropWhile (fun c => c ≠ ':')).drop 1).reverse.dropWhile
        (fun c => c = ' ' || c = ';') |>.reverse
    let assoc := ((splitComma rhs).map (fun p => String.mk (pyStrip p))).filter
        (fun p => p ≠ "" && (alookup frames p).isSome)
    if assoc.isEmpty then frames
    else dinsert frames name { name := name, frame_type := "sporadic", associated_frames := assoc }

/-- The event-triggered-frames loop body (lines 469-503): skip blank,
comment and semicolon-free lines (and colon-free lines, whose tuple
unpacking raises into the catch-all); when the first token parses with
`int(s, 0)` it is the id and the associated names come from the remaining
tokens, otherwise the id stays empty and all tokens are candidates; drop
the definition when no associated name is a known frame. -/
def etLineStep (frames : List (String × LdfFrame)) (lnc : List Char) :
    List (String × LdfFrame) :=
  let l := pyStrip lnc
  if l.isEmpty then frames
  else if (match l with | '/' :: '/' :: _ => true | _ => false) then frames
  else if !(l.contains ';') then frames
  else if !(l.contains ':') then frames
  else
    let name := String.mk (pyStrip (l.takeWhile (fun c => c ≠ ':')))
    let rhs := ((l.dropWhile (fun c => c ≠ ':')).drop 1).reverse.dropWhile
        (fun c => c = ';') |>.reverse
    let tokens := (splitComma (pyStrip rhs)).map (fun p => String.mk (pyStrip p))
    let keep := fun (p : String) => p ≠ "" && (alookup frames p).isSome
    let fid_assoc : Option Int × List String :=
      match tokens with
      | t0 :: rest =>
        match pyIntBase0 t0.data with
        | some v => (some v, rest.filter keep)
        | none => (none, tokens.filter keep)
      | [] => (none, [])
    if fid_assoc.2.isEmpty then frames
    else dinsert frames name
      { name := name, id := fid_assoc.1, frame_type := "event_triggered",
        associated_frames := fid_assoc.2 }

/-- The tail lookahead of `DIAG_FRAME_BLOCK_RE` (line 186): blanks, then
either a word followed by blanks and an opening brace, or the end. -/
def diagBlockTailOk (cs : List Char) : Bool :=
  let r := cs.dropWhile isWsC
  r.isEmpty ||
    (match scanRun isWordC r with
     | some (_, r2) =>
       (match r2.dropWhile isWsC with
        | c :: _ => c = braceL
        | [] => false)
     | none => false)

/-- `DIAG_FRAME_BLOCK_RE.search` (lines 186, 504). -/
def diagBlock (cs : List Char) : Option (List Char) :=
  scanFind (fun p => (kwBraceAt "Diagnostic_frames".data p).bind (lazyBodyGo diagBlockTailOk [])) cs

/-- One attempt of `DIAG_FRAME_DEF_RE` (line 187): name, id literal and a
braced body (dropped). -/
def diagDefAt (cs : List Char) : Option ((List Char × List Char) × List Char) := do
  let (namec, r1) ← scanRun isWordC cs
  match r1.dropWhile isWsC with
  | ':' :: r3 => do
    let (fidc, r4) ← scanFrameId (r3.dropWhile isWsC)
    match r4.dropWhile isWsC with
    | b :: r6 =>
      if b = braceL then
        match r6.dropWhile (fun c => c ≠ braceR) with
        | _ :: r8 => some ((namec, fidc), r8)
        | [] => none
      else none
    | [] => none
  | _ => none

/-- The diagnostic-frames loop body (lines 505-525): an unparseable id
skips the definition; the master node publishes frame 0x3C; the DLC is
fixed at 8. -/
def addDiagFrame (master : Option String) (acc : List (String × LdfFrame))
    (g : List Char × List Char) : List (String × LdfFrame) :=
  match pyIntBase0 g.2 with
  | none => acc
  | some v =>
    dinsert acc (String.mk g.1)
      { name := String.mk g.1, id := some v,
        publisher := if v = 0x3C then master else none,
        dlc := some 8, frame_type := "diagnostic" }

/-- The tail test of `SCHEDULE_TABLE_BLOCK_RE` (line 188): only blanks may
follow the closing brace. -/
def schedTailOk (cs : List Char) : Bool := (cs.dropWhile isWsC).isEmpty

/-- `SCHEDULE_TABLE_BLOCK_RE.search` (lines 188, 527). -/
def scheduleBlock (cs : List Char) : Option (List Char) :=
  scanFind (fun p => (kwBraceAt "Schedule_tables".data p).bind (lazyBodyGo schedTailOk [])) cs

/-- One attempt of `SCHEDULE_TABLE_DEF_RE` (line 189): a name and the body
up to the first closing brace (the `\s*` trimming of the captured body does
not change which entries `SCHEDULE_ENTRY_RE` finds in it). -/
def schedDefAt (cs : List Char) : Option ((List Char × List Char) × List Char) := do
  let (namec, r1) ← scanRun isWordC cs
  match r1.dropWhile isWsC with
  | b :: r3 =>
    if b = braceL then
      match r3.dropWhile (fun c => c ≠ braceR) with
      | _ :: r5 => some ((namec, r3.takeWhile (fun c => c ≠ braceR)), r5)
      | [] => none
    else none
  | [] => none

/-- One attempt of `SCHEDULE_ENTRY_RE` (line 190):
`(\w+)\s+delay\s+(\d+)\s*ms\s*;`. -/
def schedEntryAt (cs : List Char) : Option ((List Char × List Char) × List Char) := do
  let (namec, r1) ← scanRun isWordC cs
  let r2 ← scanSpaces1 r1
  let r3 ← scanLitCI "delay".data r2
  let r4 ← scanSpaces1 r3
  let (dc, r5) ← scanRun isDigitC r4
  let r6 ← scanLitCI "ms".data (r5.dropWhile isWsC)
  match r6.dropWhile isWsC with
  | ';' :: r7 => some ((namec, dc), r7)
  | _ => none

/-- The per-table entry validation (lines 530-547): every entry name must
already be a frame, else the whole table is invalid (`int` on a digit run
cannot fail). -/
def schedEntriesValid (frames : List (String × LdfFrame)) :
    List (List Char × List Char) → Option (List SchedEntry)
  | [] => some []
  | (n, d) :: rest =>
    if (alookup frames (String.mk n)).isSome then
      match schedEntriesValid frames rest with
      | some es => some ({ frame_name := String.mk n, delay_ms := natOfDigits d } :: es)
      | none => none
    else none

/-- One schedule-table definition (lines 530-547): the table is retained
only when valid and nonempty. -/
def schedTableStep (frames : List (String × LdfFrame))
    (acc : List (String × List SchedEntry)) (g : List Char × List Char) :
    List (String × List SchedEntry) :=
  match schedEntriesValid frames (findAll schedEntryAt g.2) with
  | some es => if es.isEmpty then acc else dinsert acc (String.mk g.1) es
  | none => acc

/-- The standard-frames stage (lines 402-440). -/
def ldfStdFrames (cs : List Char) : List (String × LdfFrame) :=
  match frameBlock cs with
  | some fb => (findAll frameDefAt fb).foldl addStdFrame []
  | none => []

/-- The sporadic-frames stage (lines 443-465); an absent or empty block
(both falsy) leaves the frames unchanged. -/
def applySpor (cs : List Char) (fs : List (String × LdfFrame)) : List (String × LdfFrame) :=
  match extract_block "Sporadic_frames".data cs with
  | some b => if b.isEmpty then fs else (splitLines b).foldl sporadicLineStep fs
  | none => fs

/-- The event-triggered-frames stage (lines 468-503). -/
def applyET (cs : List Char) (fs : List (String × LdfFrame)) : List (String × LdfFrame) :=
  match extract_block "Event_triggered_frames".data cs with
  | some b => if b.isEmpty then fs else (splitLines b).foldl etLineStep fs
  | none => fs

/-- The diagnostic-frames stage (lines 504-525). -/
def applyDiag (master : Option String) (cs : List Char) (fs : List (String × LdfFrame)) :
    List (String × LdfFrame) :=
  match diagBlock cs with
  | some db => (findAll diagDefAt db).foldl (addDiagFrame master) fs
  | none => fs

/-- The completed frames map, built in source order. -/
def ldfFrames (master : Option String) (cs : List Char) : List (String × LdfFrame) :=
  applyDiag master cs (applyET cs (applySpor cs (ldfStdFrames cs)))

/-- The schedule-tables stage (lines 526-547), validated against the
completed frames map. -/
def ldfSchedules (master : Option String) (cs : List Char) :
    List (String × List SchedEntry) :=
  match scheduleBlock cs with
  | some sb => (findAll schedDefAt sb).foldl (schedTableStep (ldfFrames master cs)) []
  | none => []

/-- `parse_ldf` (lines 246-605) projected onto master, frames and
schedules: fail when the Nodes section is missing (line 306) or when no
frame was parsed (line 577). -/
def parse_ldf (ldf : String) : Option LdfModel :=
  match nodesBlock ldf.data with
  | none => none
  | some ntext =>
    if (ldfFrames (findMaster ntext) ldf.data).isEmpty then none
    else some { master := findMaster ntext,
                frames := ldfFrames (findMaster ntext) ldf.data,
                schedules := ldfSchedules (findMaster ntext) ldf.data }

/-- A well-formed LDF text whose standard frame has id 255 and DLC 9:
`Nodes \x7b Master: M, 10 ms; Slaves: S; \x7d Frames \x7b F1: 255, P, 9
\x7b \x7d \x7d Schedule_tables \x7b T1 \x7b F1 delay 10 ms; \x7d \x7d`. -/
def ldfWideFrameText : String :=
  "Nodes \x7b Master: M, 10 ms; Slaves: S; \x7d Frames \x7b F1: 255, P, 9 \x7b \x7d \x7d Schedule_tables \x7b T1 \x7b F1 delay 10 ms; \x7d \x7d"

/-- The model `parse_ldf` returns for `ldfWideFrameText`. -/
def ldfWideFrameModel : LdfModel :=
  { master := some "M",
    frames := [("F1", { name := "F1", id := some 255, publisher := some "P",
                        dlc := some 9, frame_type := "standard" })],
    schedules := [("T1", [{ frame_name := "F1", delay_ms := 10 }])] }

/-- Concrete gateway fixture: one LIN source signal mapped onto one CAN
signal with identical scaling. -/
def gwFixtureMapping : MappingInfo :=
  { source_signal := "A", source_network := "LIN",
    target_signal := "B", target_network := "CAN1" }

/-- Concrete gateway fixture: unit scaling, 8-bit unsigned physical. -/
def gwFixtureDetails : ComparisonDetails :=
  { factor := 1, offset := 0, logical_map := [], is_signed := false,
    length := some 8, encoding_type := "physical", unit := "" }

/-- The capture-phase state of the fixture mapping: counters zero,
`mapping_info` populated on the first event (lines 2711-2712). -/
def gwFixtureCaptured : GatewayResult :=
  { initializeGatewayResult with mapping_info := some gwFixtureMapping }

/-- The post-pass outcome of the fixture: one comparison, one match. -/
def gwFixtureFinal : GatewayResult :=
  { comparisons := 1, matches_count := 1, mismatches_value := 0,
    mismatches_type := 0, mismatches_timing := 0, latency_count := 1,
    latency_sum := 1/100, latency_min_max := some (1/100, 1/100),
    mismatch_examples := [], mapping_info := some gwFixtureMapping }

/-- Every representative stored in `seen` carries its own content. -/
def seenConsistent (S : List (String × List SchedEntry))
    (seen : List (List SchedEntry × String)) : Prop :=
  ∀ p ∈ seen, alookupD S p.2 [] = p.1

/-- A concrete schedule map: two textually distinct but identical tables
and one different table. -/
def demoSchedules : List (String × List SchedEntry) :=
  [("TabB", [⟨"F1", 10⟩]), ("TabA", [⟨"F1", 10⟩]), ("TabC", [⟨"F2", 20⟩])]

/-- Witness fixture: one schedule of two slots. -/
def c10Schedules : List (String × List SchedEntry) := [("T1", [⟨"F1", 10⟩, ⟨"F2", 10⟩])]

/-- Witness fixture: LDF id-to-frame-name map. -/
def c10IdMap : List (Int × String) := [(1, "F1"), (2, "F2")]

/-- Witness fixture: a cycle in progress expecting slot 1 (frame F2). -/
def c10State : ScheduleRuntimeState :=
  { active_schedules := ["T1"], current_index := 1, last_event_timestamp := some 1,
    cycle_start_timestamp := some 1,
    cycle_log := [{ ts := 1, type := "Cycle Start", trigger_frame := "F1" }],
    cycle_id := 0, id := some 0, has_timing_errors := false }

/-- Invariant of the frames map: a frame of standard type always carries a
parsed id, a publisher and a parsed DLC. -/
def framesOk (fs : List (String × LdfFrame)) : Prop :=
  ∀ x ∈ fs, x.2.frame_type = "standard" →
    x.2.id.isSome ∧ x.2.publisher.isSome ∧ x.2.dlc.isSome

/-- Invariant of the schedules map: every retained entry references a key
of the frames map. -/
def schedOk (F : List (String × LdfFrame)) (sch : List (String × List SchedEntry)) : Prop :=
  ∀ x ∈ sch, ∀ e ∈ x.2, (alookup F e.frame_name).isSome

/-! # Theorems -/

/-! ## Carry folding: loop equation -/

theorem foldCarriesGo_congr :
    ∀ f1 f2 s, s ≤ f1 → s ≤ f2 → foldCarriesGo f1 s = foldCarriesGo f2 s := by
  intro f1
  induction f1 with
  | zero =>
    intro f2 s hs1 _
    interval_cases s
    cases f2 <;> simp [foldCarriesGo]
  | succ f1 ih =>
    intro f2 s hs1 hs2
    cases f2 with
    | zero =>
      interval_cases s
      simp [foldCarriesGo]
    | succ f2 =>
      simp only [foldCarriesGo]
      by_cases h : 0xFF < s
      · simp only [h, if_true]
        have hdec : (s &&& 0xFF) + (s >>> 8) < s := by
          have h255 : s &&& 0xFF = s % 256 := Nat.and_pow_two_sub_one_eq_mod s 8
          have hsh : s >>> 8 = s / 256 := by simp [Nat.shiftRight_eq_div_pow]
          rw [h255, hsh]; omega
        exact ih f2 _ (by omega) (by omega)
      · simp [h]

/-- The defining while-loop equation of `foldCarries`. -/
theorem foldCarries_eq (s : Nat) :
    foldCarries s = if 0xFF < s then foldCarries ((s &&& 0xFF) + (s >>> 8)) else s := by
  by_cases h : 0xFF < s
  · have hdec : (s &&& 0xFF) + (s >>> 8) < s := by
      have h255 : s &&& 0xFF = s % 256 := Nat.and_pow_two_sub_one_eq_mod s 8
      have hsh : s >>> 8 = s / 256 := by simp [Nat.shiftRight_eq_div_pow]
      rw [h255, hsh]; omega
    simp only [h, if_true]
    unfold foldCarries
    obtain ⟨t, rfl⟩ : ∃ t, s = t + 1 := ⟨s - 1, by omega⟩
    simp only [foldCarriesGo, h, if_true]
    exact foldCarriesGo_congr t _ _ (by omega) (le_refl _)
  · simp only [h, if_false]
    unfold foldCarries
    cases s with
    | zero => rfl
    | succ t => simp [foldCarriesGo, h]

/-! ## Claim C6: classic and enhanced LIN checksum -/

/-- C6: `calculate_checksum` with no PID equals the reference classic LIN
checksum of the specification (empty data yielding 0xFF), and for every
PID in [0, 255] and every byte list the enhanced checksum equals the
classic checksum of the PID-prepended list. -/
theorem C6_checksum_reference_and_enhanced :
    (∀ D : List Nat, calculate_checksum D none = some (specClassicChecksum D)) ∧
    calculate_checksum [] none = some 0xFF ∧
    (∀ P : Int, 0 ≤ P → P ≤ 255 → ∀ D : List Nat,
      calculate_checksum D (some P) = calculate_checksum (P.toNat :: D) none) := by
  refine ⟨?_, by norm_num [calculate_checksum], ?_⟩
  · intro D
    by_cases h : D = []
    · subst h; decide
    · simp [calculate_checksum, specClassicChecksum, h]
  · intro P h0 h255 D
    have hne : ¬ (P.toNat :: D) = [] := by simp
    simp [calculate_checksum, h0, h255, hne, List.sum_cons]

theorem C6_checksum_reference_and_enhanced_witness :
    calculate_checksum [0x55, 0xAA] (some 0x12) = calculate_checksum [0x12, 0x55, 0xAA] none :=
  C6_checksum_reference_and_enhanced.2.2 0x12 (by norm_num) (by norm_num) [0x55, 0xAA]

/-! ## Claim C7: PID round-trip through the parity validator -/

theorem pid_parity_roundtrip_fin :
    ∀ id : Fin 64, ∃ pid : Nat, calculate_pid (id.val : Int) = some pid ∧
      parity_expected_pid pid = pid ∧ validate_id_parity "LIN" (pid : Int) = none := by
  decide

/-- C7: for every frame id in [0, 63] the PID computed by `calculate_pid`
passes the parity check of `validate_id_parity` (the recomputed expected
PID equals the PID, and no parity-error bucket is recorded), and
`calculate_pid` fails for every id outside [0, 63]. -/
theorem C7_pid_parity_roundtrip :
    (∀ id : Int, 0 ≤ id → id ≤ 63 → ∃ pid : Nat,
      calculate_pid id = some pid ∧ parity_expected_pid pid = pid ∧
      validate_id_parity "LIN" (pid : Int) = none) ∧
    (∀ id : Int, ¬ (0 ≤ id ∧ id ≤ 63) → calculate_pid id = none) := by
  constructor
  · intro id h0 h63
    have hlt : id.toNat < 64 := by omega
    have hid : ((⟨id.toNat, hlt⟩ : Fin 64).val : Int) = id := by
      simp; omega
    have := pid_parity_roundtrip_fin ⟨id.toNat, hlt⟩
    rwa [hid] at this
  · intro id h
    simp [calculate_pid, h]

theorem C7_pid_parity_roundtrip_witness :
    (∃ pid : Nat, calculate_pid (0x2A : Int) = some pid ∧ parity_expected_pid pid = pid ∧
      validate_id_parity "LIN" (pid : Int) = none) ∧ calculate_pid (64 : Int) = none :=
  ⟨C7_pid_parity_roundtrip.1 0x2A (by norm_num) (by norm_num),
   C7_pid_parity_roundtrip.2 64 (by omega)⟩

/-! ## Claim C3: enhanced checksum and full-PID identifiers -/

/-- C3 (counterexample): on a LIN Rx record whose logged identifier is the
full PID 0x73 (≥ 0x40), with CSM = Enhanced and declared checksum 0x00,
the validator records nothing (`.ok none`), although the checksum computed
from the masked PID (0x73 % 0x40 = 0x33, whose PID is 0x73) is 0x8C ≠ 0x00,
so the claimed behaviour would have recorded a bucket. -/
theorem C3_full_pid_counterexample :
    validate_lin_checksum fullPidEnhancedEntry = .ok none ∧
    (0x40 : Int) ≤ fullPidEnhancedEntry.frame_id_int ∧
    fullPidEnhancedEntry.csm = some "Enhanced" ∧
    fullPidEnhancedEntry.declared_checksum = some 0x00 ∧
    calculate_pid (fullPidEnhancedEntry.frame_id_int % 0x40) = some 0x73 ∧
    calculate_checksum (0x73 :: fullPidEnhancedEntry.data) none = some 0x8C := by
  refine ⟨?_, by decide, by decide, by decide, by decide, by decide⟩
  decide

/-- C3 (amended): for a LIN Rx record with a declared checksum and
CSM = Enhanced, the validator derives the PID with `calculate_pid` applied
to the unmasked logged identifier: when that identifier is in [0, 63] it
validates with the PID-prepended data and records a bucket keyed by
`(id, expected, observed)` exactly on mismatch; when `calculate_pid`
fails (identifier outside [0, 63]) it returns with no bucket recorded. -/
theorem validate_lin_checksum_enhanced_eval (e : LogEntry) (d : Nat) (c0 : String)
    (hch : e.channel = "LIN") (hty : pyLower e.type = "rx")
    (hc0 : e.csm = some c0) (hc0low : pyLower c0 = "enhanced")
    (hd : e.declared_checksum = some d) :
    validate_lin_checksum e =
      (match calculate_pid e.frame_id_int with
       | none => .ok none
       | some pid =>
         match calculate_checksum (pid :: e.data) none with
         | none => .ok none
         | some expected =>
           if expected ≠ d then .ok (some (e.frame_id_int, expected, d)) else .ok none) := by
  simp only [validate_lin_checksum, hch, hty, hd, hc0, hc0low, Option.getD_some]
  by_cases hdata : e.data = [] <;> simp only [hdata, hc0low] <;>
    simp <;> cases calculate_pid e.frame_id_int <;> rfl

/-- C3 (amended): for a LIN Rx record with a declared checksum and
CSM = Enhanced, the validator derives the PID with `calculate_pid` applied
to the unmasked logged identifier: when that identifier is in [0, 63] it
validates with the PID-prepended data and records a bucket keyed by
`(id, expected, observed)` exactly on mismatch; when `calculate_pid`
fails (identifier outside [0, 63]) it returns with no bucket recorded. -/
theorem C3_enhanced_checksum_uses_unmasked_id :
    ∀ (e : LogEntry) (d : Nat) (c0 : String), e.channel = "LIN" → pyLower e.type = "rx" →
      e.csm = some c0 → pyLower c0 = "enhanced" → e.declared_checksum = some d →
      ((∀ pid c, calculate_pid e.frame_id_int = some pid →
        calculate_checksum (pid :: e.data) none = some c →
        validate_lin_checksum e = .ok (if c ≠ d then some (e.frame_id_int, c, d) else none)) ∧
      (calculate_pid e.frame_id_int = none → validate_lin_checksum e = .ok none)) := by
  intro e d c0 hch hty hc0 hc0low hd
  rw [validate_lin_checksum_enhanced_eval e d c0 hch hty hc0 hc0low hd]
  constructor
  · intro pid chk hpid hchk
    simp only [hpid, hchk]
    split <;> simp_all
  · intro hpid
    simp only [hpid]

theorem C3_enhanced_checksum_uses_unmasked_id_witness :
    validate_lin_checksum fullPidEnhancedEntry = .ok none :=
  (C3_enhanced_checksum_uses_unmasked_id fullPidEnhancedEntry 0x00 "Enhanced" (by decide)
    (by decide) (by decide) (by decide) (by decide)).2 (by decide)

/-! ## Claim C1: the checksum validator can raise on record content -/

/-- C1: `validate_lin_checksum` raises `AttributeError` on a LIN Rx record
with an empty data list, a declared checksum and no CSM field (line 2076
evaluates `entry.csm.lower()` with `entry.csm = None`). -/
theorem C1_checksum_validator_raises :
    validate_lin_checksum emptyDataChecksumEntry = .error .attributeError := by decide

/-! ## Claim C8: gateway outcome counters balance -/

theorem nlookup_mem {β : Type} : ∀ (l : List (Nat × β)) (k : Nat) (v : β),
    nlookup l k = some v → (k, v) ∈ l := by
  intro l
  induction l with
  | nil => intro k v h; simp [nlookup] at h
  | cons hd tl ih =>
    intro k v h
    obtain ⟨k0, v0⟩ := hd
    simp only [nlookup] at h
    split at h
    · rename_i heq
      subst heq
      cases h
      exact List.mem_cons_self _ _
    · exact List.mem_cons_of_mem _ (ih k v h)

theorem mem_ninsert {β : Type} : ∀ (l : List (Nat × β)) (k : Nat) (v : β) (x : Nat × β),
    x ∈ ninsert l k v → x = (k, v) ∨ x ∈ l := by
  intro l k v
  induction l with
  | nil => intro x hx; simp [ninsert] at hx; left; exact hx
  | cons hd tl ih =>
    intro x hx
    obtain ⟨k0, v0⟩ := hd
    simp only [ninsert] at hx
    split at hx
    · rename_i heq
      rcases List.mem_cons.mp hx with h1 | h1
      · left; rw [h1, heq]
      · right; exact List.mem_cons_of_mem _ h1
    · rcases List.mem_cons.mp hx with h1 | h1
      · right; rw [h1]; exact List.mem_cons_self _ _
      · rcases ih x h1 with h2 | h2
        · left; exact h2
        · right; exact List.mem_cons_of_mem _ h2

theorem gatewayProcessTarget_invariant (tol : ℚ) (srcD tgtD : ComparisonDetails)
    (st : List (ℚ × Int) × GatewayResult) (tgt : ℚ × Int) (h : gwInvariant st.2) :
    gwInvariant (gatewayProcessTarget tol srcD tgtD st tgt).2 := by
  obtain ⟨tt, rt⟩ := tgt
  unfold gwInvariant at *
  unfold gatewayProcessTarget
  cases hbest : gatewayLastBefore tt (gatewayAdvance tol tt st.1) with
  | none => simp only [hbest]; omega
  | some c =>
    obtain ⟨ts, rs⟩ := c
    simp only [hbest]
    rcases hcv : compare_gateway_values rs rt srcD tgtD with ⟨m, ct⟩
    simp only [hcv]
    cases m <;> by_cases hct : ct = "hybrid_mismatch" <;>
      simp only [hct, if_true, if_false, Bool.false_eq_true, reduceIte] <;>
      split <;> simp <;> omega

theorem correlateMapping_invariant (tol : ℚ) (srcD tgtD : ComparisonDetails)
    (sources targets : List (ℚ × Int)) (res : GatewayResult) (h : gwInvariant res) :
    gwInvariant (correlateMapping tol srcD tgtD sources targets res) := by
  unfold correlateMapping
  suffices hs : ∀ (ts : List (ℚ × Int)) (st : List (ℚ × Int) × GatewayResult),
      gwInvariant st.2 → gwInvariant ((ts.foldl (gatewayProcessTarget tol srcD tgtD) st).2) by
    exact hs targets (sources, res) h
  intro ts
  induction ts with
  | nil => intro st hst; simpa using hst
  | cons t rest ih =>
    intro st hst
    simpa using ih _ (gatewayProcessTarget_invariant tol srcD tgtD st t hst)

theorem postProcessGatewayStep_invariant (tol : ℚ)
    (ldf dbc : List (String × ComparisonDetails))
    (source_events : List (Nat × List (ℚ × Int)))
    (results : List (Nat × GatewayResult)) (item : Nat × List (ℚ × Int))
    (h : ∀ p ∈ results, gwInvariant p.2) :
    ∀ p ∈ postProcessGatewayStep tol ldf dbc source_events results item, gwInvariant p.2 := by
  obtain ⟨map_idx, targets⟩ := item
  intro p hp
  unfold postProcessGatewayStep at hp
  by_cases hskip : (nlookup source_events map_idx).getD [] = [] ∨ targets = []
  · simp only [hskip, if_true] at hp
    exact h p hp
  · simp only [hskip, if_false] at hp
    have hres0 : gwInvariant ((nlookup results map_idx).getD initializeGatewayResult) := by
      cases hl : nlookup results map_idx with
      | none => simp [initializeGatewayResult, gwInvariant]
      | some r => simpa using h _ (nlookup_mem results map_idx r hl)
    set res := (nlookup results map_idx).getD initializeGatewayResult with hresdef
    cases hmi : res.mapping_info with
    | none =>
      simp only [hmi] at hp
      rcases mem_ninsert _ _ _ _ hp with h1 | h1
      · rw [h1]; exact hres0
      · exact h p h1
    | some mi =>
      simp only [hmi] at hp
      cases hsd : _get_comparison_details mi.source_signal mi.source_network ldf dbc with
      | none =>
        simp only [hsd] at hp
        rcases mem_ninsert _ _ _ _ hp with h1 | h1
        · rw [h1]; exact hres0
        · exact h p h1
      | some srcD =>
        cases htd : _get_comparison_details mi.target_signal mi.target_network ldf dbc with
        | none =>
          simp only [hsd, htd] at hp
          rcases mem_ninsert _ _ _ _ hp with h1 | h1
          · rw [h1]; exact hres0
          · exact h p h1
        | some tgtD =>
          simp only [hsd, htd] at hp
          rcases mem_ninsert _ _ _ _ hp with h1 | h1
          · rw [h1]
            exact correlateMapping_invariant tol srcD tgtD _ targets res hres0
          · rcases mem_ninsert _ _ _ _ h1 with h2 | h2
            · rw [h2]; exact hres0
            · exact h p h2

/-- C8: after the gateway correlation post-pass, every mapping entry of the
gateway results satisfies
`comparisons = matches + mismatches_value + mismatches_type + mismatches_timing`,
provided every entry going in satisfies it (all entries produced before the
post-pass carry zero counters). -/
theorem C8_gateway_counter_balance :
    ∀ (tol : ℚ) (ldf dbc : List (String × ComparisonDetails))
      (results : List (Nat × GatewayResult))
      (source_events target_events : List (Nat × List (ℚ × Int))),
      (∀ p ∈ results, gwInvariant p.2) →
      ∀ p ∈ _post_process_gateway_correlation tol ldf dbc results source_events target_events,
        gwInvariant p.2 := by
  intro tol ldf dbc results source_events target_events h
  unfold _post_process_gateway_correlation
  induction target_events generalizing results with
  | nil => intro p hp; exact h p hp
  | cons item rest ih =>
    intro p hp
    simp only [List.foldl_cons] at hp
    exact ih _ (postProcessGatewayStep_invariant tol ldf dbc source_events results item h) p hp

theorem C8_gateway_counter_balance_witness : gwInvariant gwFixtureFinal :=
  C8_gateway_counter_balance (22/1000) [("A", gwFixtureDetails)] [("B", gwFixtureDetails)]
    [(0, gwFixtureCaptured)] [(0, [(0, 5)])] [(0, [(1/100, 5)])]
    (by intro p hp; simp only [List.mem_singleton] at hp; subst hp
        simp [gwFixtureCaptured, initializeGatewayResult, gwInvariant])
    (0, gwFixtureFinal)
    (by norm_num +decide [_post_process_gateway_correlation, postProcessGatewayStep, nlookup,
          gwFixtureCaptured, initializeGatewayResult, ninsert, gwFixtureMapping,
          _get_comparison_details, gwFixtureDetails, pyStartsWith, correlateMapping,
          gatewayProcessTarget, gatewayAdvance, gatewayLastBefore, compare_gateway_values,
          ilookup, alookup, pySignBitSet, convert_signal_value, gatewaySignExtend,
          PHYSICAL_COMPARISON_EPSILON, gwFixtureFinal])

/-! ## Claim C9: schedule grouping -/

theorem leChars_total : ∀ a b, leChars a b = true ∨ leChars b a = true := by
  intro a
  induction a with
  | nil => intro b; left; rfl
  | cons x xs ih =>
    intro b
    cases b with
    | nil => right; rfl
    | cons y ys =>
      by_cases hxy : x < y
      · left; simp [leChars, hxy]
      · by_cases hyx : y < x
        · right; simp [leChars, hyx, hxy]
        · rcases ih ys with h | h
          · left; simp [leChars, hxy, hyx, h]
          · right; simp [leChars, hxy, hyx, h]

theorem leChars_antisymm : ∀ a b, leChars a b = true → leChars b a = true → a = b := by
  intro a
  induction a with
  | nil =>
    intro b _ hba
    cases b with
    | nil => rfl
    | cons y ys => simp [leChars] at hba
  | cons x xs ih =>
    intro b hab hba
    cases b with
    | nil => simp [leChars] at hab
    | cons y ys =>
      by_cases hxy : x < y
      · simp [leChars, hxy, lt_asymm hxy] at hba
      · by_cases hyx : y < x
        · simp [leChars, hxy, hyx] at hab
        · have hxyeq : x = y := le_antisymm (not_lt.mp hyx) (not_lt.mp hxy)
          simp [leChars, hxy, hyx, hxyeq] at hab hba
          rw [hxyeq, ih ys hab hba]

theorem stringData_inj : ∀ a b : String, a.data = b.data → a = b := by
  intro a b h
  cases a
  cases b
  exact congrArg String.mk h

theorem leChars_trans : ∀ a b c, leChars a b = true → leChars b c = true →
    leChars a c = true := by
  intro a
  induction a with
  | nil => intro b c _ _; rfl
  | cons x xs ih =>
    intro b c hab hbc
    cases b with
    | nil => simp [leChars] at hab
    | cons y ys =>
      cases c with
      | nil => simp [leChars] at hbc
      | cons z zs =>
        by_cases hxy : x < y
        · by_cases hyz : y < z
          · simp [leChars, lt_trans hxy hyz]
          · by_cases hzy : z < y
            · simp [leChars, hyz, hzy] at hbc
            · have hyzeq : y = z := le_antisymm (not_lt.mp hzy) (not_lt.mp hyz)
              simp [leChars, hyzeq ▸ hxy]
        · by_cases hyx : y < x
          · simp [leChars, hxy, hyx] at hab
          · have hxyeq : x = y := le_antisymm (not_lt.mp hyx) (not_lt.mp hxy)
            simp only [leChars, hxy, hyx, if_false] at hab
            by_cases hyz : y < z
            · simp [leChars, hxyeq ▸ hyz]
            · by_cases hzy : z < y
              · simp [leChars, hyz, hzy] at hbc
              · have hyzeq : y = z := le_antisymm (not_lt.mp hzy) (not_lt.mp hyz)
                simp only [leChars, hyz, hzy, if_false] at hbc
                have hxz : ¬ x < z := hyzeq ▸ hxyeq ▸ hxy
                have hzx : ¬ z < x := hyzeq ▸ hxyeq ▸ hyx
                simp only [leChars, hxz, hzx, if_false]
                exact ih ys zs hab hbc

theorem pyStrLe_total (a b : String) : pyStrLe a b = true ∨ pyStrLe b a = true :=
  leChars_total a.data b.data

theorem pyStrLe_trans (a b c : String) (hab : pyStrLe a b = true)
    (hbc : pyStrLe b c = true) : pyStrLe a c = true :=
  leChars_trans a.data b.data c.data hab hbc

theorem pyStrLe_antisymm (a b : String) (hab : pyStrLe a b = true)
    (hba : pyStrLe b a = true) : a = b :=
  stringData_inj a b (leChars_antisymm a.data b.data hab hba)

theorem mem_insertSorted (x : String) : ∀ (l : List String) (a : String),
    a ∈ insertSorted x l ↔ a = x ∨ a ∈ l := by
  intro l
  induction l with
  | nil => intro a; simp [insertSorted]
  | cons y rest ih =>
    intro a
    unfold insertSorted
    split
    · simp
    · simp only [List.mem_cons, ih]
      tauto

theorem insertSorted_perm (x : String) : ∀ (l : List String),
    (insertSorted x l).Perm (x :: l) := by
  intro l
  induction l with
  | nil => simp [insertSorted]
  | cons y rest ih =>
    unfold insertSorted
    split
    · exact List.Perm.refl _
    · exact (List.Perm.cons y ih).trans (List.Perm.swap x y rest)

theorem insertSorted_sorted (x : String) : ∀ (l : List String),
    l.Pairwise (fun a b => pyStrLe a b = true) →
    (insertSorted x l).Pairwise (fun a b => pyStrLe a b = true) := by
  intro l
  induction l with
  | nil => intro _; simp [insertSorted]
  | cons y rest ih =>
    intro hs
    rw [List.pairwise_cons] at hs
    obtain ⟨hy, hrest⟩ := hs
    unfold insertSorted
    split
    · rename_i hxy
      rw [List.pairwise_cons]
      constructor
      · intro b hb
        rcases List.mem_cons.mp hb with rfl | hb
        · exact hxy
        · exact pyStrLe_trans x y b hxy (hy b hb)
      · rw [List.pairwise_cons]; exact ⟨hy, hrest⟩
    · rename_i hxy
      have hyx : pyStrLe y x = true := by
        rcases pyStrLe_total x y with h | h
        · exact absurd h hxy
        · exact h
      rw [List.pairwise_cons]
      constructor
      · intro b hb
        rcases (mem_insertSorted x rest b).mp hb with rfl | hb
        · exact hyx
        · exact hy b hb
      · exact ih hrest

theorem sortStrings_perm : ∀ l : List String, (sortStrings l).Perm l := by
  intro l
  induction l with
  | nil => simp [sortStrings]
  | cons x rest ih =>
    unfold sortStrings
    exact (insertSorted_perm x (sortStrings rest)).trans (List.Perm.cons x ih)

theorem sortStrings_sorted : ∀ l : List String,
    (sortStrings l).Pairwise (fun a b => pyStrLe a b = true) := by
  intro l
  induction l with
  | nil => simp [sortStrings]
  | cons x rest ih =>
    unfold sortStrings
    exact insertSorted_sorted x (sortStrings rest) ih

theorem sortStrings_eq_self : ∀ l : List String,
    l.Pairwise (fun a b => pyStrLe a b = true) → sortStrings l = l := by
  intro l
  induction l with
  | nil => intro _; rfl
  | cons x rest ih =>
    intro hs
    rw [List.pairwise_cons] at hs
    obtain ⟨hx, hrest⟩ := hs
    unfold sortStrings
    rw [ih hrest]
    cases rest with
    | nil => rfl
    | cons y ys =>
      unfold insertSorted
      rw [if_pos (hx y (by simp))]

theorem mem_sortStrings (l : List String) (a : String) : a ∈ sortStrings l ↔ a ∈ l :=
  (sortStrings_perm l).mem_iff

/-- Scan equation: the head name's content is already in `seen`. -/
theorem groupScan_cons_some (S : List (String × List SchedEntry)) (n : String)
    (rest : List String) (seen : List (List SchedEntry × String)) (r : String)
    (h : clookup seen (alookupD S n []) = some r) :
    groupScan S (n :: rest) seen =
      ((n, r) :: (groupScan S rest seen).1, (groupScan S rest seen).2) := by
  simp only [groupScan, h]

/-- Scan equation: the head name's content is new. -/
theorem groupScan_cons_none (S : List (String × List SchedEntry)) (n : String)
    (rest : List String) (seen : List (List SchedEntry × String))
    (h : clookup seen (alookupD S n []) = none) :
    groupScan S (n :: rest) seen =
      ((n, n) :: (groupScan S rest ((alookupD S n [], n) :: seen)).1,
       n :: (groupScan S rest ((alookupD S n [], n) :: seen)).2) := by
  simp only [groupScan, h]

/-- The keys of the original→representative map are exactly the scanned
names, in order. -/
theorem groupScan_keys (S : List (String × List SchedEntry)) :
    ∀ (names : List String) (seen : List (List SchedEntry × String)),
      (groupScan S names seen).1.map Prod.fst = names := by
  intro names
  induction names with
  | nil => intro seen; rfl
  | cons n rest ih =>
    intro seen
    cases hs : clookup seen (alookupD S n []) with
    | some r => rw [groupScan_cons_some S n rest seen r hs]; simp [ih]
    | none => rw [groupScan_cons_none S n rest seen hs]; simp [ih]

theorem clookup_cons_none {β : List SchedEntry} {seen : List (List SchedEntry × String)}
    {c : List SchedEntry} {r : String} (h : clookup ((c, r) :: seen) β = none) :
    clookup seen β = none := by
  unfold clookup at h
  split at h
  · cases h
  · exact h

/-- If a name's content is already mapped to `r` in `seen`, the scan maps
the name to `r`. -/
theorem groupScan_lookup_of_seen (S : List (String × List SchedEntry)) :
    ∀ (names : List String) (seen : List (List SchedEntry × String)) (n : String) (r : String),
      n ∈ names → clookup seen (alookupD S n []) = some r →
      alookup (groupScan S names seen).1 n = some r := by
  intro names
  induction names with
  | nil => intro seen n r h; simp at h
  | cons n0 rest ih =>
    intro seen n r hmem hseen
    by_cases heq : n0 = n
    · subst heq
      rw [groupScan_cons_some S n0 rest seen r hseen]
      simp [alookup]
    · have hmem2 : n ∈ rest := by
        rcases List.mem_cons.mp hmem with h | h
        · exact absurd h.symm heq
        · exact h
      cases hs0 : clookup seen (alookupD S n0 []) with
      | some r0 =>
        rw [groupScan_cons_some S n0 rest seen r0 hs0]
        simpa [alookup, heq] using ih seen n r hmem2 hseen
      | none =>
        rw [groupScan_cons_none S n0 rest seen hs0]
        have hne : alookupD S n0 [] ≠ alookupD S n [] := by
          intro hc
          rw [hc, hseen] at hs0
          cases hs0
        have hseen2 : clookup ((alookupD S n0 [], n0) :: seen) (alookupD S n []) = some r := by
          unfold clookup
          rw [if_neg hne]
          exact hseen
        simpa [alookup, heq] using ih _ n r hmem2 hseen2

/-- Scanned names whose contents are equal map to the same representative. -/
theorem groupScan_eq_of_content_eq (S : List (String × List SchedEntry)) :
    ∀ (names : List String) (seen : List (List SchedEntry × String)) (a b : String),
      a ∈ names → b ∈ names → alookupD S a [] = alookupD S b [] →
      alookup (groupScan S names seen).1 a = alookup (groupScan S names seen).1 b := by
  intro names
  induction names with
  | nil => intro seen a b ha; simp at ha
  | cons n rest ih =>
    intro seen a b ha hb hcont
    by_cases hab : a = b
    · rw [hab]
    · by_cases han : a = n
      · subst han
        have hbrest : b ∈ rest := by
          rcases List.mem_cons.mp hb with h | h
          · exact absurd h.symm hab
          · exact h
        cases hs : clookup seen (alookupD S a []) with
        | some r =>
          rw [groupScan_cons_some S a rest seen r hs]
          have hb2 : alookup (groupScan S rest seen).1 b = some r :=
            groupScan_lookup_of_seen S rest seen b r hbrest (by rw [← hcont]; exact hs)
          simp [alookup, hab, hb2]
        | none =>
          rw [groupScan_cons_none S a rest seen hs]
          have hb2 : alookup (groupScan S rest ((alookupD S a [], a) :: seen)).1 b = some a :=
            groupScan_lookup_of_seen S rest _ b a hbrest
              (by unfold clookup; rw [if_pos hcont])
          simp [alookup, hab, hb2]
      · by_cases hbn : b = n
        · subst hbn
          have harest : a ∈ rest := by
            rcases List.mem_cons.mp ha with h | h
            · exact absurd h han
            · exact h
          cases hs : clookup seen (alookupD S b []) with
          | some r =>
            rw [groupScan_cons_some S b rest seen r hs]
            have ha2 : alookup (groupScan S rest seen).1 a = some r :=
              groupScan_lookup_of_seen S rest seen a r harest (by rw [hcont]; exact hs)
            have hba : ¬ b = a := fun h => hab h.symm
            simp [alookup, hba, ha2]
          | none =>
            rw [groupScan_cons_none S b rest seen hs]
            have ha2 : alookup (groupScan S rest ((alookupD S b [], b) :: seen)).1 a = some b :=
              groupScan_lookup_of_seen S rest _ a b harest
                (by unfold clookup; rw [if_pos hcont.symm])
            have hba : ¬ b = a := fun h => hab h.symm
            simp [alookup, hba, ha2]
        · have harest : a ∈ rest := by
            rcases List.mem_cons.mp ha with h | h
            · exact absurd h han
            · exact h
          have hbrest : b ∈ rest := by
            rcases List.mem_cons.mp hb with h | h
            · exact absurd h hbn
            · exact h
          have hna : ¬ n = a := fun h => han h.symm
          have hnb : ¬ n = b := fun h => hbn h.symm
          cases hs : clookup seen (alookupD S n []) with
          | some r =>
            rw [groupScan_cons_some S n rest seen r hs]
            simpa [alookup, hna, hnb] using ih seen a b harest hbrest hcont
          | none =>
            rw [groupScan_cons_none S n rest seen hs]
            simpa [alookup, hna, hnb] using ih _ a b harest hbrest hcont

/-- Every scanned name maps to a representative with the same content. -/
theorem groupScan_rep_content (S : List (String × List SchedEntry)) :
    ∀ (names : List String) (seen : List (List SchedEntry × String)),
      seenConsistent S seen → ∀ a ∈ names,
      ∃ r, alookup (groupScan S names seen).1 a = some r ∧
        alookupD S r [] = alookupD S a [] := by
  intro names
  induction names with
  | nil => intro seen _ a ha; simp at ha
  | cons n rest ih =>
    intro seen hcons a ha
    by_cases han : a = n
    · subst han
      cases hs : clookup seen (alookupD S a []) with
      | some r =>
        rw [groupScan_cons_some S a rest seen r hs]
        refine ⟨r, by simp [alookup], ?_⟩
        have hmem : (alookupD S a [], r) ∈ seen := by
          clear ih hcons
          induction seen with
          | nil => cases hs
          | cons p ps ihs =>
            obtain ⟨c0, r0⟩ := p
            unfold clookup at hs
            split at hs
            · rename_i hceq
              cases hs
              rw [hceq]
              exact List.mem_cons_self _ _
            · exact List.mem_cons_of_mem _ (ihs hs)
        exact hcons _ hmem
      | none =>
        rw [groupScan_cons_none S a rest seen hs]
        exact ⟨a, by simp [alookup], rfl⟩
    · have harest : a ∈ rest := by
        rcases List.mem_cons.mp ha with h | h
        · exact absurd h han
        · exact h
      have hna : ¬ n = a := fun h => han h.symm
      cases hs : clookup seen (alookupD S n []) with
      | some r =>
        rw [groupScan_cons_some S n rest seen r hs]
        obtain ⟨r2, hl, hc⟩ := ih seen hcons a harest
        exact ⟨r2, by simpa [alookup, hna] using hl, hc⟩
      | none =>
        rw [groupScan_cons_none S n rest seen hs]
        have hcons2 : seenConsistent S ((alookupD S n [], n) :: seen) := by
          intro p hp
          rcases List.mem_cons.mp hp with h | h
          · rw [h]
          · exact hcons p h
        obtain ⟨r2, hl, hc⟩ := ih _ hcons2 a harest
        exact ⟨r2, by simpa [alookup, hna] using hl, hc⟩

/-- The representative list is a sublist of the scanned names. -/
theorem groupScan_reps_sublist (S : List (String × List SchedEntry)) :
    ∀ (names : List String) (seen : List (List SchedEntry × String)),
      (groupScan S names seen).2.Sublist names := by
  intro names
  induction names with
  | nil => intro seen; simp [groupScan]
  | cons n rest ih =>
    intro seen
    cases hs : clookup seen (alookupD S n []) with
    | some r =>
      rw [groupScan_cons_some S n rest seen r hs]
      exact (ih seen).cons n
    | none =>
      rw [groupScan_cons_none S n rest seen hs]
      exact (ih _).cons₂ n

/-- The representatives have pairwise distinct contents, and none of their
contents is already in `seen`. -/
theorem groupScan_reps_distinct (S : List (String × List SchedEntry)) :
    ∀ (names : List String) (seen : List (List SchedEntry × String)),
      (∀ r ∈ (groupScan S names seen).2, clookup seen (alookupD S r []) = none) ∧
      (groupScan S names seen).2.Pairwise
        (fun r1 r2 => alookupD S r1 [] ≠ alookupD S r2 []) := by
  intro names
  induction names with
  | nil => intro seen; simp [groupScan]
  | cons n rest ih =>
    intro seen
    cases hs : clookup seen (alookupD S n []) with
    | some r =>
      rw [groupScan_cons_some S n rest seen r hs]
      exact ih seen
    | none =>
      rw [groupScan_cons_none S n rest seen hs]
      obtain ⟨hclk, hpw⟩ := ih ((alookupD S n [], n) :: seen)
      constructor
      · intro r hr
        rcases List.mem_cons.mp hr with h | h
        · rw [h]; exact hs
        · exact clookup_cons_none (hclk r h)
      · rw [List.pairwise_cons]
        refine ⟨?_, hpw⟩
        intro r hr hc
        have := hclk r hr
        unfold clookup at this
        rw [if_pos hc] at this
        cases this

/-- Scanning names with pairwise distinct contents (none in `seen`) is the
identity grouping. -/
theorem groupScan_distinct_id (U : List (String × List SchedEntry)) :
    ∀ (names : List String) (seen : List (List SchedEntry × String)),
      names.Pairwise (fun r1 r2 => alookupD U r1 [] ≠ alookupD U r2 []) →
      (∀ n ∈ names, clookup seen (alookupD U n []) = none) →
      groupScan U names seen = (names.map (fun n => (n, n)), names) := by
  intro names
  induction names with
  | nil => intro seen _ _; rfl
  | cons n rest ih =>
    intro seen hpw hclk
    rw [List.pairwise_cons] at hpw
    obtain ⟨hn, hrest⟩ := hpw
    rw [groupScan_cons_none U n rest seen (hclk n (by simp))]
    have hclk2 : ∀ m ∈ rest, clookup ((alookupD U n [], n) :: seen) (alookupD U m []) = none := by
      intro m hm
      unfold clookup
      rw [if_neg (fun h => hn m hm h)]
      exact hclk m (List.mem_cons_of_mem _ hm)
    rw [ih _ hrest hclk2]
    simp

/-- Looking up a key in a key-value list built by mapping a function over
the keys returns the function value. -/
theorem alookup_map_self {β : Type} (f : String → β) :
    ∀ (l : List String) (a : String), a ∈ l →
      alookup (l.map (fun x => (x, f x))) a = some (f a) := by
  intro l
  induction l with
  | nil => intro a ha; simp at ha
  | cons x rest ih =>
    intro a ha
    simp only [List.map_cons, alookup]
    by_cases hx : x = a
    · rw [if_pos hx, hx]
    · rw [if_neg hx]
      exact ih a (by rcases List.mem_cons.mp ha with h | h; exact absurd h.symm hx; exact h)

theorem alookup_eq_some_alookupD {β : Type} :
    ∀ (l : List (String × β)) (a : String) (d : β), a ∈ l.map Prod.fst →
      alookup l a = some (alookupD l a d) := by
  intro l
  induction l with
  | nil => intro a d ha; simp at ha
  | cons p rest ih =>
    intro a d ha
    obtain ⟨k0, v0⟩ := p
    by_cases hk : k0 = a
    · simp [alookup, alookupD, hk]
    · have ha2 : a ∈ rest.map Prod.fst := by
        simp only [List.map_cons] at ha
        rcases List.mem_cons.mp ha with h | h
        · exact absurd h.symm hk
        · exact h
      simp only [alookup, alookupD, if_neg hk]
      simpa [alookupD] using ih a d ha2

/-- C9: `group_equivalent_schedules` maps two schedule names to the same
representative exactly when their ordered `(frame_name, delay_ms)` entry
lists are identical, and grouping is idempotent: regrouping the returned
unique-schedules map yields that same map. -/
theorem C9_grouping_iff_and_idempotent :
    ∀ (schedules : List (String × List SchedEntry)),
      (∀ a b, a ∈ schedules.map Prod.fst → b ∈ schedules.map Prod.fst →
        (alookup (group_equivalent_schedules schedules).original_to_representative a =
           alookup (group_equivalent_schedules schedules).original_to_representative b ↔
         alookup schedules a = alookup schedules b)) ∧
      (group_equivalent_schedules
          (group_equivalent_schedules schedules).unique_schedules).unique_schedules =
        (group_equivalent_schedules schedules).unique_schedules := by
  intro S
  constructor
  · intro a b ha hb
    have ha' : a ∈ sortStrings (S.map Prod.fst) := (mem_sortStrings _ a).mpr ha
    have hb' : b ∈ sortStrings (S.map Prod.fst) := (mem_sortStrings _ b).mpr hb
    constructor
    · intro heq
      simp only [group_equivalent_schedules] at heq
      obtain ⟨r, hla, hca⟩ := groupScan_rep_content S (sortStrings (S.map Prod.fst)) []
        (by intro p hp; simp at hp) a ha'
      obtain ⟨r2, hlb, hcb⟩ := groupScan_rep_content S (sortStrings (S.map Prod.fst)) []
        (by intro p hp; simp at hp) b hb'
      rw [hla, hlb] at heq
      cases heq
      rw [alookup_eq_some_alookupD S a [] ha, alookup_eq_some_alookupD S b [] hb,
        ← hca, ← hcb]
    · intro heq
      have hcont : alookupD S a [] = alookupD S b [] := by
        rw [alookup_eq_some_alookupD S a [] ha, alookup_eq_some_alookupD S b [] hb] at heq
        simpa [alookupD] using heq
      simp only [group_equivalent_schedules]
      exact groupScan_eq_of_content_eq S _ [] a b ha' hb' hcont
  · simp only [group_equivalent_schedules]
    set names := sortStrings (S.map Prod.fst) with hnames
    set reps := (groupScan S names []).2 with hreps
    set U := reps.map (fun r => (r, alookupD S r [])) with hU
    have hUkeys : U.map Prod.fst = reps := by
      rw [hU, List.map_map]
      exact List.map_id _
    have hcontent2 : ∀ r ∈ reps, alookupD U r [] = alookupD S r [] := by
      intro r hr
      have h2 := alookup_map_self (fun x => alookupD S x []) reps r hr
      rw [hU, alookupD, h2]
      rfl
    have hsorted2 : sortStrings reps = reps := by
      apply sortStrings_eq_self
      exact List.Pairwise.sublist (groupScan_reps_sublist S names []) (sortStrings_sorted _)
    have hdist : reps.Pairwise (fun r1 r2 => alookupD U r1 [] ≠ alookupD U r2 []) := by
      refine List.Pairwise.imp_of_mem ?_ (groupScan_reps_distinct S names []).2
      intro x y hx hy hne
      rw [hcontent2 x hx, hcontent2 y hy]
      exact hne
    have hid : groupScan U (sortStrings (U.map Prod.fst)) [] =
        (reps.map (fun n => (n, n)), reps) := by
      rw [hUkeys, hsorted2]
      exact groupScan_distinct_id U reps [] hdist (by intro n _; rfl)
    rw [hid]
    rw [hU]
    apply List.map_congr_left
    intro r hr
    rw [hcontent2 r hr]

theorem C9_grouping_iff_and_idempotent_witness :
    (alookup (group_equivalent_schedules demoSchedules).original_to_representative "TabB" =
       alookup (group_equivalent_schedules demoSchedules).original_to_representative "TabA" ↔
     alookup demoSchedules "TabB" = alookup demoSchedules "TabA") :=
  (C9_grouping_iff_and_idempotent demoSchedules).1 "TabB" "TabA" (by decide) (by decide)

/-! ## Claim C4: DBC baud-rate conflict does not abort channel parsing -/

/-- C4: aggregating two DBC files with different explicit baud rates does
not abort: `parse_dbcs_for_channel` catches its own `ValueError`
(lines 2031-2033) and returns a merged model for the channel containing
the messages of both files, keeping the first baud rate. -/
theorem C4_baud_conflict_still_returns_merged_model :
    dbcFileA.baudrate = some 19200 ∧ dbcFileB.baudrate = some 9600 ∧
    parse_dbcs_for_channel [dbcFileA, dbcFileB] =
      ([(100, dbcMsgA), (200, dbcMsgB)], some 19200) := by
  refine ⟨rfl, rfl, ?_⟩
  decide

/-! ## Claim C10: a mismatching record aborts the cycle and is re-evaluated -/

/-- C10: when a record's frame matches none of the frames expected at the
current cursor index, the cycle is aborted and recorded with a final
Sequence Mismatch event, and the same record is then re-evaluated against
an empty cursor within the same call: it either starts a new cycle (when
its frame is the first entry of at least one schedule table, with
`current_index` set to 1) or is recorded as an Intrusion Frame global
error — it is never simply discarded.  The side conditions require a
truthy (nonzero) cycle start timestamp and rule out the degenerate
single-slot immediate completion. -/
theorem C10_sequence_mismatch_reevaluates_record :
    ∀ (frame_id : Int) (current_ts t : ℚ)
      (schedules : List (String × List SchedEntry))
      (id_map : List (Int × String)) (jitter tf mtol : ℚ)
      (st : ScheduleRuntimeState) (an : ScheduleAnalysis) (frame_name : String),
      ilookup id_map frame_id = some frame_name →
      st.active_schedules ≠ [] →
      st.cycle_start_timestamp = some t → t ≠ 0 →
      expectedFramesInfo schedules st.active_schedules st.current_index ≠ [] →
      alookup (expectedFramesInfo schedules st.active_schedules st.current_index)
        frame_name = none →
      (∀ c, schedCandidates schedules frame_name = [c] →
        1 < (alookupD schedules c []).length) →
      (validate_schedule_order_and_presence "Rx" frame_id current_ts schedules
          id_map jitter tf mtol st an).2.cycles = an.cycles ++
        [{ id := st.id.getD 0,
           schedule_name := match st.active_schedules with | [s] => s | _ => "Ambiguous",
           start_ts := t, end_ts := current_ts, status := "Aborted",
           events := st.cycle_log ++
             [{ ts := current_ts, type := "Sequence Mismatch",
                expected := (expectedFramesInfo schedules st.active_schedules
                  st.current_index).map Prod.fst,
                observed := frame_name }],
           had_timing_errors := st.has_timing_errors }] ∧
      ((schedCandidates schedules frame_name ≠ [] ∧
        (validate_schedule_order_and_presence "Rx" frame_id current_ts schedules
            id_map jitter tf mtol st an).1.active_schedules =
          schedCandidates schedules frame_name ∧
        (validate_schedule_order_and_presence "Rx" frame_id current_ts schedules
            id_map jitter tf mtol st an).1.current_index = 1 ∧
        (validate_schedule_order_and_presence "Rx" frame_id current_ts schedules
            id_map jitter tf mtol st an).1.cycle_log =
          [{ ts := current_ts, type := "Cycle Start", trigger_frame := frame_name }] ∧
        (validate_schedule_order_and_presence "Rx" frame_id current_ts schedules
            id_map jitter tf mtol st an).2.global_errors = an.global_errors) ∨
       (schedCandidates schedules frame_name = [] ∧
        (validate_schedule_order_and_presence "Rx" frame_id current_ts schedules
            id_map jitter tf mtol st an).1.active_schedules = [] ∧
        (validate_schedule_order_and_presence "Rx" frame_id current_ts schedules
            id_map jitter tf mtol st an).2.global_errors = an.global_errors ++
          [{ ts := current_ts, type := "Intrusion Frame", frame_name := frame_name }])) := by
  intro frame_id current_ts t schedules id_map jitter tf mtol st an frame_name
  intro hmap hactive hstart ht hefi hnomatch hnoshort
  have hfin : schedFinalizeCycle current_ts "Aborted"
      (schedLogEvent st
        { ts := current_ts, type := "Sequence Mismatch",
          expected := (expectedFramesInfo schedules st.active_schedules
            st.current_index).map Prod.fst,
          observed := frame_name }) an =
      (schedResetState (schedLogEvent st
        { ts := current_ts, type := "Sequence Mismatch",
          expected := (expectedFramesInfo schedules st.active_schedules
            st.current_index).map Prod.fst,
          observed := frame_name }),
       { an with cycles := an.cycles ++
          [{ id := st.id.getD 0,
             schedule_name := match st.active_schedules with | [s] => s | _ => "Ambiguous",
             start_ts := t, end_ts := current_ts, status := "Aborted",
             events := st.cycle_log ++
               [{ ts := current_ts, type := "Sequence Mismatch",
                  expected := (expectedFramesInfo schedules st.active_schedules
                    st.current_index).map Prod.fst,
                  observed := frame_name }],
             had_timing_errors := st.has_timing_errors }] }) := by
    unfold schedFinalizeCycle schedLogEvent
    simp only [hstart]
    rw [if_neg (by simp [ht])]
    simp [hstart]
  have hval : validate_schedule_order_and_presence "Rx" frame_id current_ts schedules
      id_map jitter tf mtol st an =
      schedStartBranch schedules frame_name current_ts
        (schedResetState (schedLogEvent st
          { ts := current_ts, type := "Sequence Mismatch",
            expected := (expectedFramesInfo schedules st.active_schedules
              st.current_index).map Prod.fst,
            observed := frame_name }))
        { an with cycles := an.cycles ++
            [{ id := st.id.getD 0,
               schedule_name := match st.active_schedules with | [s] => s | _ => "Ambiguous",
               start_ts := t, end_ts := current_ts, status := "Aborted",
               events := st.cycle_log ++
                 [{ ts := current_ts, type := "Sequence Mismatch",
                    expected := (expectedFramesInfo schedules st.active_schedules
                      st.current_index).map Prod.fst,
                    observed := frame_name }],
               had_timing_errors := st.has_timing_errors }] } := by
    simp only [validate_schedule_order_and_presence]
    rw [if_neg (by simp)]
    simp only [hmap]
    rw [if_neg hactive]
    simp only [hnomatch, hefi, if_neg hefi]
    rw [hfin]
    simp
  rw [hval]
  by_cases hc : schedCandidates schedules frame_name = []
  · have hsb : ∀ (stx : ScheduleRuntimeState) (anx : ScheduleAnalysis),
        schedStartBranch schedules frame_name current_ts stx anx =
          (stx, { anx with global_errors := anx.global_errors ++
            [{ ts := current_ts, type := "Intrusion Frame", frame_name := frame_name }] }) := by
      intro stx anx
      simp [schedStartBranch, hc]
    rw [hsb]
    refine ⟨rfl, Or.inr ⟨hc, ?_, rfl⟩⟩
    simp [schedResetState, schedLogEvent]
  · have hcc : ∀ (stx : ScheduleRuntimeState) (anx : ScheduleAnalysis),
        stx.active_schedules = schedCandidates schedules frame_name →
        stx.current_index = 1 →
        schedCheckComplete schedules current_ts stx anx = (false, stx, anx) := by
      intro stx anx hax hix
      unfold schedCheckComplete
      split
      · rename_i sched_name hsa
        have hlen := hnoshort sched_name (by rw [← hax, hsa])
        rw [if_neg (by rw [hix]; omega)]
      · rfl
    have hsb : ∀ (stx : ScheduleRuntimeState) (anx : ScheduleAnalysis),
        schedStartBranch schedules frame_name current_ts stx anx =
          (schedLogEvent { stx with
              active_schedules := schedCandidates schedules frame_name, current_index := 1,
              last_event_timestamp := some current_ts,
              cycle_start_timestamp := some current_ts, id := some stx.cycle_id }
            { ts := current_ts, type := "Cycle Start", trigger_frame := frame_name }, anx) := by
      intro stx anx
      simp only [schedStartBranch]
      rw [if_pos (by simp [hc])]
      rw [hcc _ _ (by simp [schedLogEvent]) (by simp [schedLogEvent])]
    rw [hsb]
    refine ⟨rfl, Or.inl ⟨hc, ?_, ?_, ?_, rfl⟩⟩
    · simp [schedLogEvent]
    · simp [schedLogEvent]
    · simp [schedLogEvent, schedResetState]

theorem C10_sequence_mismatch_reevaluates_record_witness :
    (validate_schedule_order_and_presence "Rx" 1 2 c10Schedules
        c10IdMap 0 0 0 c10State ⟨[], []⟩).2.cycles = [] ++
      [{ id := c10State.id.getD 0,
         schedule_name := match c10State.active_schedules with | [s] => s | _ => "Ambiguous",
         start_ts := 1, end_ts := 2, status := "Aborted",
         events := c10State.cycle_log ++
           [{ ts := 2, type := "Sequence Mismatch",
              expected := (expectedFramesInfo c10Schedules c10State.active_schedules
                c10State.current_index).map Prod.fst,
              observed := "F1" }],
         had_timing_errors := c10State.has_timing_errors }] ∧
    ((schedCandidates c10Schedules "F1" ≠ [] ∧
      (validate_schedule_order_and_presence "Rx" 1 2 c10Schedules
          c10IdMap 0 0 0 c10State ⟨[], []⟩).1.active_schedules =
        schedCandidates c10Schedules "F1" ∧
      (validate_schedule_order_and_presence "Rx" 1 2 c10Schedules
          c10IdMap 0 0 0 c10State ⟨[], []⟩).1.current_index = 1 ∧
      (validate_schedule_order_and_presence "Rx" 1 2 c10Schedules
          c10IdMap 0 0 0 c10State ⟨[], []⟩).1.cycle_log =
        [{ ts := 2, type := "Cycle Start", trigger_frame := "F1" }] ∧
      (validate_schedule_order_and_presence "Rx" 1 2 c10Schedules
          c10IdMap 0 0 0 c10State ⟨[], []⟩).2.global_errors = []) ∨
     (schedCandidates c10Schedules "F1" = [] ∧
      (validate_schedule_order_and_presence "Rx" 1 2 c10Schedules
          c10IdMap 0 0 0 c10State ⟨[], []⟩).1.active_schedules = [] ∧
      (validate_schedule_order_and_presence "Rx" 1 2 c10Schedules
          c10IdMap 0 0 0 c10State ⟨[], []⟩).2.global_errors = [] ++
        [{ ts := 2, type := "Intrusion Frame", frame_name := "F1" }])) :=
  C10_sequence_mismatch_reevaluates_record 1 2 1 c10Schedules c10IdMap 0 0 0
    c10State ⟨[], []⟩ "F1" (by decide) (by decide) rfl (by norm_num)
    (by decide) (by decide)
    (by intro c hc
        have h3 : schedCandidates c10Schedules "F1" = ["T1"] := by decide
        rw [h3] at hc
        cases hc
        decide)

theorem processAccounting_go (V : List String) (ls : List String) (acc : Nat × Nat) :
    ls.foldl (processStep V) acc =
      (acc.1 + (ls.filterMap parse_log_line).length,
       acc.2 + ((ls.filterMap parse_log_line).filter (isSkippedEntry V)).length) := by
  induction ls generalizing acc with
  | nil => simp
  | cons l t ih =>
    simp only [List.foldl_cons, List.filterMap_cons]
    cases h : parse_log_line l with
    | none => simp [processStep, h, ih]
    | some e =>
      by_cases hs : isSkippedEntry V e = true
      · simp [processStep, h, ih, hs, List.filter_cons, Prod.ext_iff]
        omega
      · simp [processStep, h, ih, hs, List.filter_cons, Prod.ext_iff]
        omega

/-- C5: a non-empty line that matches none of the record patterns produces
no record, but contrary to the claim it does not increment `skipped`: over
any log, `processed` counts exactly the lines some matcher accepts, and
`skipped` counts exactly the parsed records whose channel starts with CAN
and is not among the DBC-mapped channels; unmatched lines contribute to
neither counter. -/
theorem C5_skipped_counts_unmapped_can_records (valid_can_channels : List String)
    (ls : List String) :
    processAccounting valid_can_channels ls =
      ((ls.filterMap parse_log_line).length,
       ((ls.filterMap parse_log_line).filter (isSkippedEntry valid_can_channels)).length) := by
  simpa using processAccounting_go valid_can_channels ls (0, 0)

/-- C5 counterexample: the non-empty line `hello world` matches no pattern,
and a log containing it reports `skipped = 0` (a parsed LIN line alongside
it is counted only as processed), where the claim requires the unmatched
line to increment `skipped` to 1. -/
theorem C5_unmatched_line_not_counted :
    parse_log_line "hello world" = none ∧
    processAccounting ["CAN1"] ["hello world", "0.1 Li 01 Rx"] = (1, 0) := by
  decide

theorem alookup_mem {β : Type} : ∀ (l : List (String × β)) (k : String) (v : β),
    alookup l k = some v → (k, v) ∈ l := by
  intro l
  induction l with
  | nil => intro k v h; simp [alookup] at h
  | cons hd tl ih =>
    intro k v h
    obtain ⟨k0, v0⟩ := hd
    simp only [alookup] at h
    split at h
    · rename_i heq
      subst heq
      cases h
      exact List.mem_cons_self _ _
    · exact List.mem_cons_of_mem _ (ih k v h)

theorem mem_dinsert {β : Type} : ∀ (l : List (String × β)) (k : String) (v : β) (x : String × β),
    x ∈ dinsert l k v → x = (k, v) ∨ x ∈ l := by
  intro l k v
  induction l with
  | nil => intro x hx; simp [dinsert] at hx; left; exact hx
  | cons hd tl ih =>
    intro x hx
    obtain ⟨k0, v0⟩ := hd
    simp only [dinsert] at hx
    split at hx
    · rename_i heq
      rcases List.mem_cons.mp hx with h1 | h1
      · left; rw [h1, heq]
      · right; exact List.mem_cons_of_mem _ h1
    · rcases List.mem_cons.mp hx with h1 | h1
      · right; rw [h1]; exact List.mem_cons_self _ _
      · rcases ih x h1 with h2 | h2
        · left; exact h2
        · right; exact List.mem_cons_of_mem _ h2

theorem framesOk_nil : framesOk [] := by
  intro x hx; simp at hx

theorem framesOk_dinsert {fs : List (String × LdfFrame)} {k : String} {f : LdfFrame}
    (hfs : framesOk fs)
    (hf : f.frame_type = "standard" → f.id.isSome ∧ f.publisher.isSome ∧ f.dlc.isSome) :
    framesOk (dinsert fs k f) := by
  intro x hx
  rcases mem_dinsert fs k f x hx with h | h
  · subst h; exact hf
  · exact hfs x h

theorem addStdFrame_ok (acc : List (String × LdfFrame))
    (g : List Char × List Char × List Char × List Char) (h : framesOk acc) :
    framesOk (addStdFrame acc g) := by
  unfold addStdFrame
  split
  · exact h
  · exact framesOk_dinsert h (by intro _; simp)

theorem sporadicLineStep_ok (acc : List (String × LdfFrame)) (l : List Char)
    (h : framesOk acc) : framesOk (sporadicLineStep acc l) := by
  simp only [sporadicLineStep]
  split
  · exact h
  · split
    · exact h
    · split
      · exact h
      · split
        · exact h
        · exact framesOk_dinsert h (by intro hstd; simp at hstd)

theorem etLineStep_ok (acc : List (String × LdfFrame)) (l : List Char)
    (h : framesOk acc) : framesOk (etLineStep acc l) := by
  simp only [etLineStep]
  split
  · exact h
  · split
    · exact h
    · split
      · exact h
      · split
        · exact h
        · split
          · exact h
          · exact framesOk_dinsert h (by intro hstd; simp at hstd)

theorem addDiagFrame_ok (master : Option String) (acc : List (String × LdfFrame))
    (g : List Char × List Char) (h : framesOk acc) :
    framesOk (addDiagFrame master acc g) := by
  unfold addDiagFrame
  split
  · exact h
  · exact framesOk_dinsert h (by intro hstd; simp at hstd)

theorem framesOk_foldl {α : Type}
    {step : List (String × LdfFrame) → α → List (String × LdfFrame)}
    (hstep : ∀ acc x, framesOk acc → framesOk (step acc x)) :
    ∀ (l : List α) (acc), framesOk acc → framesOk (l.foldl step acc) := by
  intro l
  induction l with
  | nil => intro acc h; simpa using h
  | cons a t ih => intro acc h; rw [List.foldl_cons]; exact ih _ (hstep _ _ h)

theorem ldfStdFrames_ok (cs : List Char) : framesOk (ldfStdFrames cs) := by
  unfold ldfStdFrames
  split
  · exact framesOk_foldl addStdFrame_ok _ _ framesOk_nil
  · exact framesOk_nil

theorem applySpor_ok (cs : List Char) (fs : List (String × LdfFrame))
    (h : framesOk fs) : framesOk (applySpor cs fs) := by
  unfold applySpor
  split
  · split
    · exact h
    · exact framesOk_foldl sporadicLineStep_ok _ _ h
  · exact h

theorem applyET_ok (cs : List Char) (fs : List (String × LdfFrame))
    (h : framesOk fs) : framesOk (applyET cs fs) := by
  unfold applyET
  split
  · split
    · exact h
    · exact framesOk_foldl etLineStep_ok _ _ h
  · exact h

theorem applyDiag_ok (master : Option String) (cs : List Char)
    (fs : List (String × LdfFrame)) (h : framesOk fs) :
    framesOk (applyDiag master cs fs) := by
  unfold applyDiag
  split
  · exact framesOk_foldl (addDiagFrame_ok master) _ _ h
  · exact h

theorem ldfFrames_ok (master : Option String) (cs : List Char) :
    framesOk (ldfFrames master cs) :=
  applyDiag_ok master cs _ (applyET_ok cs _ (applySpor_ok cs _ (ldfStdFrames_ok cs)))

theorem schedEntriesValid_ok (F : List (String × LdfFrame)) :
    ∀ (l : List (List Char × List Char)) (es : List SchedEntry),
      schedEntriesValid F l = some es →
      ∀ e ∈ es, (alookup F e.frame_name).isSome := by
  intro l
  induction l with
  | nil =>
    intro es h
    simp only [schedEntriesValid] at h
    cases h
    intro e he; simp at he
  | cons p t ih =>
    obtain ⟨n, d⟩ := p
    intro es h
    simp only [schedEntriesValid] at h
    split at h
    · rename_i hmem
      cases hrec : schedEntriesValid F t with
      | none => rw [hrec] at h; cases h
      | some es2 =>
        rw [hrec] at h
        cases h
        intro e he
        rcases List.mem_cons.mp he with h1 | h1
        · subst h1; exact hmem
        · exact ih es2 hrec e h1
    · cases h

theorem schedOk_nil (F : List (String × LdfFrame)) : schedOk F [] := by
  intro x hx; simp at hx

theorem schedTableStep_ok (F : List (String × LdfFrame))
    (acc : List (String × List SchedEntry)) (g : List Char × List Char)
    (h : schedOk F acc) : schedOk F (schedTableStep F acc g) := by
  cases hsv : schedEntriesValid F (findAll schedEntryAt g.2) with
  | none => simpa [schedTableStep, hsv] using h
  | some es =>
    by_cases he : es.isEmpty
    · simpa [schedTableStep, hsv, he] using h
    · intro x hx
      have hx2 : x ∈ dinsert acc (String.mk g.1) es := by
        simpa [schedTableStep, hsv, he] using hx
      rcases mem_dinsert acc (String.mk g.1) es x hx2 with h1 | h1
      · subst h1; exact schedEntriesValid_ok F _ es hsv
      · exact h x h1

theorem schedOk_foldl {α : Type} (F : List (String × LdfFrame))
    {step : List (String × List SchedEntry) → α → List (String × List SchedEntry)}
    (hstep : ∀ acc x, schedOk F acc → schedOk F (step acc x)) :
    ∀ (l : List α) (acc), schedOk F acc → schedOk F (l.foldl step acc) := by
  intro l
  induction l with
  | nil => intro acc h; simpa using h
  | cons a t ih => intro acc h; rw [List.foldl_cons]; exact ih _ (hstep _ _ h)

theorem ldfSchedules_ok (master : Option String) (cs : List Char) :
    schedOk (ldfFrames master cs) (ldfSchedules master cs) := by
  unfold ldfSchedules
  split
  · exact schedOk_foldl _ (schedTableStep_ok _) _ _ (schedOk_nil _)
  · exact schedOk_nil _

/-- C2: on every text `parse_ldf` accepts, each entry of each retained
schedule table references an existing frame, and every frame of standard
type carries a parsed id, a publisher and a parsed DLC; contrary to the
claim, no range check constrains the id to [0, 63] or the DLC to [1, 8]
(see the counterexample, where id 255 and DLC 9 are accepted). -/
theorem C2_ldf_model_invariants (ldf : String) (m : LdfModel)
    (h : parse_ldf ldf = some m) :
    (∀ x ∈ m.schedules, ∀ e ∈ x.2, (alookup m.frames e.frame_name).isSome) ∧
    (∀ x ∈ m.frames, x.2.frame_type = "standard" →
      x.2.id.isSome ∧ x.2.publisher.isSome ∧ x.2.dlc.isSome) := by
  unfold parse_ldf at h
  cases hn : nodesBlock ldf.data with
  | none => rw [hn] at h; cases h
  | some ntext =>
    rw [hn] at h
    dsimp only at h
    by_cases hemp : (ldfFrames (findMaster ntext) ldf.data).isEmpty
    · rw [if_pos hemp] at h; cases h
    · rw [if_neg hemp] at h
      cases h
      exact ⟨ldfSchedules_ok _ _, ldfFrames_ok _ _⟩

theorem C2_ldf_model_invariants_witness :
    (∀ x ∈ ldfWideFrameModel.schedules, ∀ e ∈ x.2,
      (alookup ldfWideFrameModel.frames e.frame_name).isSome) ∧
    (∀ x ∈ ldfWideFrameModel.frames, x.2.frame_type = "standard" →
      x.2.id.isSome ∧ x.2.publisher.isSome ∧ x.2.dlc.isSome) :=
  C2_ldf_model_invariants ldfWideFrameText ldfWideFrameModel (by decide)

/-- C2 counterexample: `parse_ldf` accepts a text whose only standard
frame has id 255 and DLC 9 (both outside the ranges the claim asserts)
and still retains a schedule referencing it. -/
theorem C2_range_checks_absent :
    parse_ldf ldfWideFrameText = some ldfWideFrameModel ∧
    alookup ldfWideFrameModel.frames "F1" =
      some { name := "F1", id := some 255, publisher := some "P", dlc := some 9 } ∧
    ¬((255 : Int) ≤ 63) ∧ ¬((9 : Nat) ≤ 8) := by
  decide
